import Mathlib

/-!
# aws-lambda-thumbnail: the Lambda handler of `cmd/lambda/main.go`

A shallow embedding of `init` and `handler`, together with the library
routines whose results decide what they do: `url.QueryUnescape`,
`strconv.Atoi`, and `imaging.Resize` with the `image.NewNRGBA` it allocates
with: the size of the image it returns, and the panics that end it.

Go strings are byte sequences; a byte is a natural number below 256.
The storage client and the image codec are collaborators: they are fields
of `World`, and every theorem quantifies over them.
-/

namespace Lambda

/-! ## Strings and errors -/

/-- Go `string`: a sequence of bytes. -/
abbrev GoString := List Nat

/-- The bytes of an ASCII literal. -/
def str (s : String) : GoString := s.toList.map Char.toNat

/-- Every element is a byte. -/
def IsBytes (s : GoString) : Prop := ∀ b ∈ s, b < 256

instance (s : GoString) : Decidable (IsBytes s) := by
  unfold IsBytes; infer_instance

/-- Go `error` values that reach the handler's caller. -/
inductive Error where
  /-- The type `url.EscapeError`, holding the offending fragment. -/
  | escapeError (fragment : GoString)
  /-- The type `*strconv.NumError`: function, input, and whether it is `ErrRange`
  (otherwise `ErrSyntax`). -/
  | numError (func num : GoString) (range : Bool)
  /-- An error returned by a collaborator, with its text. -/
  | external (text : GoString)
  /-- The value of `fmt.Errorf(context + ": %v", cause)`. -/
  | errorf (context : GoString) (cause : Error)
  /-- A run-time panic, with its value. The handler does not return: its
  deferred calls run and `lambda.Start` reports the panic as the error of the
  invocation. -/
  | panic (value : GoString)
  deriving DecidableEq, Repr

deriving instance DecidableEq for Except

/-- The method `Error()`: the text of an error. `quote` stands for `strconv.Quote`. -/
def Error.text (quote : GoString → GoString) : Error → GoString
  | .escapeError fragment => str "invalid URL escape " ++ quote fragment
  | .numError func num range =>
      str "strconv." ++ func ++ str ": parsing " ++ quote num ++ str ": " ++
        (if range then str "value out of range" else str "invalid syntax")
  | .external text => text
  | .errorf context cause => context ++ str ": " ++ cause.text quote
  | .panic value => value

/-! ## `net/url`: `QueryUnescape` -/

/-- The function `ishex` of `net/url`. -/
def ishex (c : Nat) : Bool :=
  if 48 ≤ c ∧ c ≤ 57 then true
  else if 97 ≤ c ∧ c ≤ 102 then true
  else if 65 ≤ c ∧ c ≤ 70 then true
  else false

/-- The function `unhex` of `net/url`. -/
def unhex (c : Nat) : Nat :=
  if 48 ≤ c ∧ c ≤ 57 then c - 48
  else if 97 ≤ c ∧ c ≤ 102 then c - 97 + 10
  else if 65 ≤ c ∧ c ≤ 70 then c - 65 + 10
  else 0

/-- First loop of `unescape` in mode `encodeQueryComponent`: counts the `%`
in `n`, records a `+` in `hasPlus`, and stops at the first `%` that is not
followed by two hex digits, returning the fragment `s[i:]` cut to 3 bytes. -/
def unescapeScan : GoString → Nat → Bool → Except GoString (Nat × Bool)
  | [], n, hasPlus => .ok (n, hasPlus)
  | c :: rest, n, hasPlus =>
    if c = 37 then
      match rest with
      | a :: b :: tl =>
        if ishex a && ishex b then unescapeScan tl (n + 1) hasPlus
        else .error ((c :: rest).take 3)
      | _ => .error ((c :: rest).take 3)
    else if c = 43 then unescapeScan rest n true
    else unescapeScan rest n hasPlus

/-- Second loop of `unescape` in mode `encodeQueryComponent`: writes the
decoded bytes. It runs only after `unescapeScan` accepted the string, so a
`%` always has two bytes after it (the last branch of the inner match is
never reached). -/
def unescapeBuild : GoString → GoString
  | [] => []
  | c :: rest =>
    if c = 37 then
      match rest with
      | a :: b :: tl => ((unhex a <<< 4 ||| unhex b) % 256) :: unescapeBuild tl
      | _ => []
    else if c = 43 then 32 :: unescapeBuild rest
    else c :: unescapeBuild rest

/-- The function `url.QueryUnescape`, that is `unescape(s, encodeQueryComponent)`. -/
def QueryUnescape (s : GoString) : Except Error GoString :=
  match unescapeScan s 0 false with
  | .error fragment => .error (.escapeError fragment)
  | .ok (n, hasPlus) =>
    if n = 0 ∧ hasPlus = false then .ok s
    else .ok (unescapeBuild s)

/-! ## `strconv`: `Atoi` -/

/-- Size of `int` in bits (`strconv.IntSize`) on the 64-bit Lambda runtimes. -/
def intSize : Nat := 64

/-- The value `syntaxError(fn, str)` of `strconv`. -/
def syntaxError (fn s : GoString) : Error := .numError fn s false

/-- The value `rangeError(fn, str)` of `strconv`. -/
def rangeError (fn s : GoString) : Error := .numError fn s true

/-- Conversion of an integer to `int64` (two's complement wrap-around). -/
def toInt64 (x : Int) : Int := (x + 2 ^ 63) % 2 ^ 64 - 2 ^ 63

/-- The digit loop of the fast path of `Atoi`: `ch -= '0'` is a byte
subtraction, and a result above 9 is a syntax error (`none`). -/
def atoiDigits : GoString → Int → Option Int
  | [], n => some n
  | ch :: rest, n =>
    let ch := (ch + 256 - 48) % 256
    if ch > 9 then none
    else atoiDigits rest (n * 10 + (ch : Int))

/-- The function `lower` of `strconv`: `c | ('x' - 'X')`. -/
def lower (c : Nat) : Nat := c ||| 32

/-- The digit loop of `ParseUint` at base 10 (so `base0` is false and `_`
is an ordinary invalid byte), over `uint64` arithmetic. Returns the value
and the error, as the Go function does. -/
def parseUintLoop (s0 : GoString) (cutoff maxVal : Nat) :
    GoString → Nat → Nat × Option Error
  | [], n => (n, none)
  | c :: rest, n =>
    let digit : Option Nat :=
      if 48 ≤ c ∧ c ≤ 57 then some (c - 48)
      else if 97 ≤ lower c ∧ lower c ≤ 122 then some ((lower c + 256 - 97 + 10) % 256)
      else none
    match digit with
    | none => (0, some (syntaxError (str "ParseUint") s0))
    | some d =>
      if d ≥ 10 then (0, some (syntaxError (str "ParseUint") s0))
      else if n ≥ cutoff then
        -- n*base overflows
        (maxVal, some (rangeError (str "ParseUint") s0))
      else
        let n := n * 10 % 2 ^ 64
        let n1 := (n + d) % 2 ^ 64
        if n1 < n ∨ n1 > maxVal then
          -- n+d overflows
          (maxVal, some (rangeError (str "ParseUint") s0))
        else parseUintLoop s0 cutoff maxVal rest n1

/-- The function `strconv.ParseUint(s, 10, bitSize)` for `0 ≤ bitSize ≤ 64`. -/
def ParseUint (s : GoString) (bitSize : Nat) : Nat × Option Error :=
  if s = [] then (0, some (syntaxError (str "ParseUint") s))
  else
    let bitSize := if bitSize = 0 then intSize else bitSize
    let cutoff := (2 ^ 64 - 1) / 10 + 1
    let maxVal := ((1 <<< bitSize) % 2 ^ 64 + 2 ^ 64 - 1) % 2 ^ 64
    parseUintLoop s cutoff maxVal s 0

/-- The function `strconv.ParseInt(s, 10, bitSize)` for `0 ≤ bitSize ≤ 64`. -/
def ParseInt (s : GoString) (bitSize : Nat) : Int × Option Error :=
  if s = [] then (0, some (syntaxError (str "ParseInt") s))
  else
    -- pick off leading sign
    let s0 := s
    let neg := decide (s.head? = some 45)
    let s := if s.head? = some 43 then s.drop 1 else if s.head? = some 45 then s.drop 1 else s
    -- convert unsigned and check range
    match ParseUint s bitSize with
    | (_, some (.numError _ _ false)) => (0, some (syntaxError (str "ParseInt") s0))
    | (un, _) =>
      let bitSize := if bitSize = 0 then intSize else bitSize
      let cutoff := (1 <<< (bitSize - 1)) % 2 ^ 64
      if neg = false ∧ un ≥ cutoff then
        (toInt64 ((cutoff : Int) - 1), some (rangeError (str "ParseInt") s0))
      else if neg = true ∧ un > cutoff then
        (toInt64 (-(toInt64 cutoff)), some (rangeError (str "ParseInt") s0))
      else
        let n := toInt64 un
        (if neg then toInt64 (-n) else n, none)

/-- The function `strconv.Atoi` with a 64-bit `int`. -/
def Atoi (s : GoString) : Int × Option Error :=
  let sLen := s.length
  if intSize = 64 ∧ (0 < sLen ∧ sLen < 19) then
    -- fast path for small integers that fit the int type
    let s0 := s
    let signed := decide (s.head? = some 45 ∨ s.head? = some 43)
    let s := if signed then s.drop 1 else s
    if signed = true ∧ s.length < 1 then (0, some (syntaxError (str "Atoi") s0))
    else
      match atoiDigits s 0 with
      | none => (0, some (syntaxError (str "Atoi") s0))
      | some n => (if s0.head? = some 45 then -n else n, none)
  else
    -- slow path for invalid, big, or underscored integers
    match ParseInt s 0 with
    | (i64, some (.numError _ num range)) => (i64, some (.numError (str "Atoi") num range))
    | r => r

/-! ## `image` and `github.com/disintegration/imaging`: `Resize` -/

/-- An image: the size of its bounds (`Bounds().Dx()`, `Bounds().Dy()`) and
its pixel data. -/
structure Image where
  dx : Int
  dy : Int
  pix : List Nat
  deriving DecidableEq, Repr

/-- The parts of `imaging` and of the run-time system that are not modelled.
`scale a b c` is
`int(math.Max(1.0, math.Floor(float64(a)*float64(b)/float64(c) + 0.5)))`.
`make n` is `make([]uint8, n)`: `none` when the run-time system provides the
buffer, and otherwise the value of the panic that ends the call.
`resample src w h` are the pixels the Lanczos filter computes for a `w`×`h`
destination, or the value of the panic when its own buffers (weights, scan
lines) cannot be had. -/
structure Imaging where
  scale : Int → Int → Int → Int
  make : Int → Option GoString
  resample : Image → Int → Int → Except GoString (List Nat)

/-- The value `&image.NRGBA{}`: an empty image. -/
def emptyNRGBA : Image := ⟨0, 0, []⟩

/-- The function `mul3NonNeg` of `image`: `x*y*z`, or -1 when an argument is
negative or the product overflows an `int`. The two `bits.Mul64` give the
high and low 64 bits of a product. -/
def mul3NonNeg (x y z : Int) : Int :=
  if x < 0 ∨ y < 0 ∨ z < 0 then -1
  else
    let hi := x * y / 2 ^ 64
    let lo := x * y % 2 ^ 64
    if hi ≠ 0 then -1
    else
      let hi := lo * z / 2 ^ 64
      let lo := lo * z % 2 ^ 64
      if hi ≠ 0 then -1
      else
        let a := toInt64 lo
        if a < 0 then -1 else a

/-- The size along one axis of `image.Rect(0, 0, w, h)`: `Rect` swaps the two
coordinates of an axis when the second is below the first. -/
def rectSide (x1 : Int) : Int := if 0 > x1 then toInt64 (0 - x1) else x1

/-- The function `image.NewNRGBA(image.Rect(0, 0, w, h))`: the size of the new
image, or the value of the panic. `pixelBufferLength` panics when
`mul3NonNeg` is negative, and then the pixel buffer is made. -/
def NewNRGBA (L : Imaging) (w h : Int) : Except GoString (Int × Int) :=
  let dx := rectSide w
  let dy := rectSide h
  let totalLength := mul3NonNeg 4 dx dy
  if totalLength < 0 then
    .error (str "image: NewNRGBA Rectangle has huge or negative dimensions")
  else
    match L.make totalLength with
    | some v => .error v
    | none => .ok (dx, dy)

/-- The function `resizeHorizontal`: a destination `width` wide and as high as the source. -/
def resizeHorizontal (L : Imaging) (img : Image) (width : Int) : Except GoString Image :=
  match NewNRGBA L width img.dy with
  | .error v => .error v
  | .ok (dx, dy) =>
    match L.resample img width img.dy with
    | .error v => .error v
    | .ok pix => .ok ⟨dx, dy, pix⟩

/-- The function `resizeVertical`: a destination `height` high and as wide as the source. -/
def resizeVertical (L : Imaging) (img : Image) (height : Int) : Except GoString Image :=
  match NewNRGBA L img.dx height with
  | .error v => .error v
  | .ok (dx, dy) =>
    match L.resample img img.dx height with
    | .error v => .error v
    | .ok pix => .ok ⟨dx, dy, pix⟩

/-- The function `imaging.Clone`: a copy in a new image with bounds of the same size. -/
def Clone (L : Imaging) (img : Image) : Except GoString Image :=
  match NewNRGBA L img.dx img.dy with
  | .error v => .error v
  | .ok (dx, dy) => .ok ⟨dx, dy, img.pix⟩

/-- The function `imaging.Resize(img, width, height, imaging.Lanczos)`: the image
returned, or the value of the panic that ends the call. The Lanczos filter
has `Support = 3.0`, so the nearest-neighbour branch is not taken. -/
def Resize (L : Imaging) (img : Image) (width height : Int) : Except GoString Image :=
  let dstW := width
  let dstH := height
  if dstW < 0 ∨ dstH < 0 then .ok emptyNRGBA
  else if dstW = 0 ∧ dstH = 0 then .ok emptyNRGBA
  else
    let srcW := img.dx
    let srcH := img.dy
    if srcW ≤ 0 ∨ srcH ≤ 0 then .ok emptyNRGBA
    else
      -- if new width or height is 0 then preserve aspect ratio, minimum 1px
      let dstW := if dstW = 0 then L.scale dstH srcW srcH else dstW
      let dstH := if dstH = 0 then L.scale dstW srcH srcW else dstH
      if srcW ≠ dstW ∧ srcH ≠ dstH then
        match resizeHorizontal L img dstW with
        | .error v => .error v
        | .ok tmp => resizeVertical L tmp dstH
      else if srcW ≠ dstW then resizeHorizontal L img dstW
      else if srcH ≠ dstH then resizeVertical L img dstH
      else Clone L img

/-! ## `main.go` -/

/-- The input event structure. -/
structure Event where
  S3Bucket : GoString
  S3Key : GoString
  deriving DecidableEq, Repr

/-- The output structure. -/
structure Thumbnail where
  S3Key : GoString
  S3Bucket : GoString
  deriving DecidableEq, Repr

/-- The response structure. -/
structure Response where
  Thumbnail : Thumbnail
  deriving DecidableEq, Repr

/-- The zero value `Response{}`. -/
def Response.zero : Response := ⟨⟨[], []⟩⟩

/-- The package variables set by `init` (the S3 client is the `World`). -/
structure Globals where
  maxWidth : Int
  maxHeight : Int
  thumbnailBucket : GoString
  deriving DecidableEq, Repr

/-- The function `init`: `getenv` is `os.Getenv`, which returns the empty string
for a variable that is not set. -/
def init (getenv : GoString → GoString) : Globals :=
  let r := Atoi (getenv (str "MAX_WIDTH"))
  let maxWidth := if r.2 ≠ none then 250 else r.1
  let r := Atoi (getenv (str "MAX_HEIGHT"))
  let maxHeight := if r.2 ≠ none then 250 else r.1
  let thumbnailBucket := getenv (str "THUMBNAIL_BUCKET")
  ⟨maxWidth, maxHeight, thumbnailBucket⟩

/-- The fields of `s3.PutObjectInput` the handler sets. -/
structure PutObjectInput where
  Bucket : GoString
  Key : GoString
  Body : List Nat
  ContentType : GoString
  deriving DecidableEq, Repr

/-- The collaborators of the handler: the S3 client and the image codec. -/
structure World where
  /-- The call `s3Client.GetObject` on a bucket and a key: the object's body, or an error. -/
  getObject : GoString → GoString → Except Error (List Nat)
  /-- The call `image.Decode` reading the body. -/
  imageDecode : List Nat → Except Error Image
  /-- The unmodelled parts of `imaging.Resize` and of the run-time system. -/
  imaging : Imaging
  /-- The call `imaging.Encode(&buf, img, imaging.JPEG)`: the bytes written. -/
  encode : Image → Except Error (List Nat)
  /-- The call `s3Client.PutObject`: its error, if any. -/
  putObject : PutObjectInput → Option Error

/-- A call the handler makes on a collaborator, in the order made. -/
inductive Call where
  | getObject (bucket key : GoString)
  | resize (width height : Int)
  | putObject (input : PutObjectInput)
  | bodyClose
  deriving DecidableEq, Repr

/-- What one run of the handler returns and does. A run that panics returns
nothing: its `err` is the panic and its `response` the zero value. -/
structure Outcome where
  response : Response
  err : Option Error
  calls : List Call
  deriving DecidableEq, Repr

/-- The part of `handler` after `defer getObjectOutput.Body.Close()`. -/
def handlerBody (g : Globals) (W : World) (srcKey : GoString) (body : List Nat) : Outcome :=
  -- Decode the image
  match W.imageDecode body with
  | .error err => ⟨Response.zero, some (.errorf (str "failed to decode image") err), []⟩
  | .ok img =>
    -- Resize the image
    match Resize W.imaging img g.maxWidth g.maxHeight with
    | .error v =>
      -- the call panicked: nothing after it runs
      ⟨Response.zero, some (.panic v), [.resize g.maxWidth g.maxHeight]⟩
    | .ok resizedImg =>
      -- Encode the resized image to a buffer
      match W.encode resizedImg with
      | .error err =>
        ⟨Response.zero, some (.errorf (str "failed to encode resized image") err),
          [.resize g.maxWidth g.maxHeight]⟩
      | .ok buf =>
        -- Upload the resized image to S3
        let destKey := str "resized-" ++ srcKey
        let input : PutObjectInput := ⟨g.thumbnailBucket, destKey, buf, str "image/jpeg"⟩
        match W.putObject input with
        | some err =>
          ⟨Response.zero, some (.errorf (str "failed to upload resized image to S3") err),
            [.resize g.maxWidth g.maxHeight, .putObject input]⟩
        | none =>
          ⟨⟨⟨destKey, g.thumbnailBucket⟩⟩, none,
            [.resize g.maxWidth g.maxHeight, .putObject input]⟩

/-- The function `handler`. The deferred `Body.Close()` runs when the function
returns or panics, after everything `handlerBody` did. -/
def handler (g : Globals) (W : World) (event : Event) : Outcome :=
  -- Decode S3 object key
  match QueryUnescape event.S3Key with
  | .error err => ⟨Response.zero, some (.errorf (str "failed to decode S3 key") err), []⟩
  | .ok srcKey =>
    -- Get the object from S3
    match W.getObject event.S3Bucket srcKey with
    | .error err =>
      ⟨Response.zero, some (.errorf (str "failed to get object from S3") err),
        [.getObject event.S3Bucket srcKey]⟩
    | .ok body =>
      let r := handlerBody g W srcKey body
      ⟨r.response, r.err, .getObject event.S3Bucket srcKey :: r.calls ++ [.bodyClose]⟩

/-- The runs of `handler`, by the first step that fails or panics. -/
inductive Run (g : Globals) (W : World) (event : Event) : Outcome → Prop where
  | keyError (e : Error) (hkey : QueryUnescape event.S3Key = .error e) :
      Run g W event ⟨Response.zero, some (.errorf (str "failed to decode S3 key") e), []⟩
  | getError (srcKey : GoString) (e : Error)
      (hkey : QueryUnescape event.S3Key = .ok srcKey)
      (hget : W.getObject event.S3Bucket srcKey = .error e) :
      Run g W event ⟨Response.zero, some (.errorf (str "failed to get object from S3") e),
        [.getObject event.S3Bucket srcKey]⟩
  | decodeError (srcKey : GoString) (body : List Nat) (e : Error)
      (hkey : QueryUnescape event.S3Key = .ok srcKey)
      (hget : W.getObject event.S3Bucket srcKey = .ok body)
      (himg : W.imageDecode body = .error e) :
      Run g W event ⟨Response.zero, some (.errorf (str "failed to decode image") e),
        [.getObject event.S3Bucket srcKey, .bodyClose]⟩
  | resizePanic (srcKey : GoString) (body : List Nat) (img : Image) (v : GoString)
      (hkey : QueryUnescape event.S3Key = .ok srcKey)
      (hget : W.getObject event.S3Bucket srcKey = .ok body)
      (himg : W.imageDecode body = .ok img)
      (hres : Resize W.imaging img g.maxWidth g.maxHeight = .error v) :
      Run g W event ⟨Response.zero, some (.panic v),
        [.getObject event.S3Bucket srcKey, .resize g.maxWidth g.maxHeight, .bodyClose]⟩
  | encodeError (srcKey : GoString) (body : List Nat) (img resized : Image) (e : Error)
      (hkey : QueryUnescape event.S3Key = .ok srcKey)
      (hget : W.getObject event.S3Bucket srcKey = .ok body)
      (himg : W.imageDecode body = .ok img)
      (hres : Resize W.imaging img g.maxWidth g.maxHeight = .ok resized)
      (henc : W.encode resized = .error e) :
      Run g W event ⟨Response.zero, some (.errorf (str "failed to encode resized image") e),
        [.getObject event.S3Bucket srcKey, .resize g.maxWidth g.maxHeight, .bodyClose]⟩
  | putError (srcKey : GoString) (body : List Nat) (img resized : Image) (buf : List Nat)
      (e : Error)
      (hkey : QueryUnescape event.S3Key = .ok srcKey)
      (hget : W.getObject event.S3Bucket srcKey = .ok body)
      (himg : W.imageDecode body = .ok img)
      (hres : Resize W.imaging img g.maxWidth g.maxHeight = .ok resized)
      (henc : W.encode resized = .ok buf)
      (hput : W.putObject ⟨g.thumbnailBucket, str "resized-" ++ srcKey, buf, str "image/jpeg"⟩
        = some e) :
      Run g W event
        ⟨Response.zero, some (.errorf (str "failed to upload resized image to S3") e),
          [.getObject event.S3Bucket srcKey, .resize g.maxWidth g.maxHeight,
            .putObject ⟨g.thumbnailBucket, str "resized-" ++ srcKey, buf, str "image/jpeg"⟩,
            .bodyClose]⟩
  | success (srcKey : GoString) (body : List Nat) (img resized : Image) (buf : List Nat)
      (hkey : QueryUnescape event.S3Key = .ok srcKey)
      (hget : W.getObject event.S3Bucket srcKey = .ok body)
      (himg : W.imageDecode body = .ok img)
      (hres : Resize W.imaging img g.maxWidth g.maxHeight = .ok resized)
      (henc : W.encode resized = .ok buf)
      (hput : W.putObject ⟨g.thumbnailBucket, str "resized-" ++ srcKey, buf, str "image/jpeg"⟩
        = none) :
      Run g W event
        ⟨⟨⟨str "resized-" ++ srcKey, g.thumbnailBucket⟩⟩, none,
          [.getObject event.S3Bucket srcKey, .resize g.maxWidth g.maxHeight,
            .putObject ⟨g.thumbnailBucket, str "resized-" ++ srcKey, buf, str "image/jpeg"⟩,
            .bodyClose]⟩

/-! ## The specification's vocabulary -/

/-- The next two bytes exist and are hexadecimal digits. -/
def twoHexAhead : GoString → Bool
  | a :: b :: _ => ishex a && ishex b
  | _ => false

/-- The key contains a malformed escape sequence: a `%` that is not followed
by two hexadecimal digits. -/
def hasMalformedEscape : GoString → Bool
  | [] => false
  | c :: rest => (c == 37 && !twoHexAhead rest) || hasMalformedEscape rest

/-- The hexadecimal value of a digit: its place among `0123456789abcdef`,
in either case. -/
def hexValue (c : Nat) : Nat :=
  min ((str "0123456789abcdef").indexOf c) ((str "0123456789ABCDEF").indexOf c)

/-- Percent-decoding as the specification words it: each `%XX` escape is
replaced with the byte whose hexadecimal value is `XX`, and every other
character is left unchanged. -/
def percentDecode : GoString → GoString
  | [] => []
  | c :: a :: b :: tl =>
    if c = 37 ∧ ishex a = true ∧ ishex b = true then
      (16 * hexValue a + hexValue b) :: percentDecode tl
    else c :: percentDecode (a :: b :: tl)
  | c :: rest => c :: percentDecode rest

/-- A `+` becomes a space; any other byte is itself. -/
def plusToSpace (c : Nat) : Nat := if c = 43 then 32 else c

/-- A decimal digit. -/
def isDecimalDigit (b : Nat) : Bool := decide (48 ≤ b ∧ b ≤ 57)

/-- A valid integer literal: an optional sign followed by one or more decimal
digits. -/
def isIntLiteral : GoString → Bool
  | [] => false
  | c :: rest =>
    if c = 43 ∨ c = 45 then !rest.isEmpty && rest.all isDecimalDigit
    else (c :: rest).all isDecimalDigit

/-- Output dimensions are the source dimensions scaled by one common factor,
up to rounding to whole pixels (each within one pixel of the scaled value). -/
def ScaledByCommonFactor (srcW srcH outW outH : Int) : Prop :=
  ∃ f : ℚ, |(outW : ℚ) - f * srcW| < 1 ∧ |(outH : ℚ) - f * srcH| < 1

/-- The run-time system provides what a resize to at most `maxW`×`maxH`
needs: every pixel buffer of up to `4 * maxW * maxH` bytes, and the buffers of
every resampling to a destination of at most that size. -/
def Provides (L : Imaging) (maxW maxH : Int) : Prop :=
  (∀ n, n ≤ 4 * maxW * maxH → L.make n = none) ∧
    (∀ src a b, a ≤ maxW → b ≤ maxH → ∃ pix, L.resample src a b = .ok pix)

/-- The inputs of the `PutObject` calls among the calls made, in order. -/
def putCalls : List Call → List PutObjectInput
  | [] => []
  | .putObject input :: rest => input :: putCalls rest
  | _ :: rest => putCalls rest

/-- A collaborator set in which every step succeeds on a 400×200 source. -/
def sampleWorld : World where
  getObject := fun _ _ => .ok [1]
  imageDecode := fun _ => .ok ⟨400, 200, []⟩
  imaging := ⟨fun a b c => max 1 ((2 * a * b + c) / (2 * c)), fun _ => none, fun _ _ _ => .ok []⟩
  encode := fun img => .ok [img.dx.toNat, img.dy.toNat]
  putObject := fun _ => none

/-- As `sampleWorld`, but the source object does not exist. -/
def notFoundWorld : World :=
  { sampleWorld with getObject := fun _ _ => .error (.external (str "NoSuchKey")) }

/-- As `sampleWorld`, but the object is not an image. -/
def badImageWorld : World :=
  { sampleWorld with imageDecode := fun _ => .error (.external (str "image: unknown format")) }

/-- An environment in which no variable is set. -/
def emptyEnv : GoString → GoString := fun _ => []

/-- An environment with `MAX_WIDTH` and `MAX_HEIGHT` set and nothing else. -/
def sizeEnv (width height : GoString) : GoString → GoString := fun name =>
  if name = str "MAX_WIDTH" then width
  else if name = str "MAX_HEIGHT" then height
  else []

/-- The event of the end-to-end example. -/
def sampleEvent : Event := ⟨str "src", str "cat%20photo.png"⟩

/-- The configuration of the end-to-end example. -/
def sampleGlobals : Globals := ⟨100, 100, str "thumbs"⟩

/-! ## Lemmas on `QueryUnescape` -/

theorem ishex_ne_percent (a : Nat) (h : ishex a = true) : a ≠ 37 := by
  intro h37; subst h37; simp [ishex] at h

theorem ishex_ne_plus (a : Nat) (h : ishex a = true) : a ≠ 43 := by
  intro h43; subst h43; simp [ishex] at h

theorem ishex_lt (a : Nat) (h : ishex a = true) : a < 103 := by
  unfold ishex at h
  split_ifs at h <;> omega

theorem unhex_eq_hexValue : ∀ a < 103, ishex a = true → unhex a = hexValue a ∧ unhex a < 16 := by
  decide

theorem shift_or_nibbles : ∀ x < 16, ∀ y < 16, (x <<< 4 ||| y) % 256 = 16 * x + y := by
  decide

theorem hasMalformedEscape_escape (a b : Nat) (tl : GoString)
    (ha : ishex a = true) (hb : ishex b = true) :
    hasMalformedEscape (37 :: a :: b :: tl) = hasMalformedEscape tl := by
  have h1 : (a == 37) = false := by simpa using ishex_ne_percent a ha
  have h2 : (b == 37) = false := by simpa using ishex_ne_percent b hb
  simp [hasMalformedEscape, twoHexAhead, ha, hb, h1, h2]

theorem unescapeScan_escape (a b : Nat) (tl : GoString) (n : Nat) (p : Bool)
    (ha : ishex a = true) (hb : ishex b = true) :
    unescapeScan (37 :: a :: b :: tl) n p = unescapeScan tl (n + 1) p := by
  simp [unescapeScan, ha, hb]

theorem unescapeScan_bad (rest : GoString) (n : Nat) (p : Bool)
    (h : twoHexAhead rest = false) :
    unescapeScan (37 :: rest) n p = .error ((37 :: rest).take 3) := by
  rcases rest with _ | ⟨a, _ | ⟨b, tl⟩⟩
  · simp [unescapeScan]
  · simp [unescapeScan]
  · have h2 : (ishex a && ishex b) = false := by simpa [twoHexAhead] using h
    simp only [unescapeScan, h2]
    simp

theorem unescapeScan_plus (rest : GoString) (n : Nat) (p : Bool) :
    unescapeScan (43 :: rest) n p = unescapeScan rest n true := by
  rcases rest with _ | ⟨a, _ | ⟨b, tl⟩⟩ <;> simp [unescapeScan]

theorem unescapeScan_other (c : Nat) (rest : GoString) (n : Nat) (p : Bool)
    (hc : c ≠ 37) (hp : c ≠ 43) :
    unescapeScan (c :: rest) n p = unescapeScan rest n p := by
  rcases rest with _ | ⟨a, _ | ⟨b, tl⟩⟩ <;> simp [unescapeScan, hc, hp]

theorem unescapeBuild_escape (a b : Nat) (tl : GoString) :
    unescapeBuild (37 :: a :: b :: tl) =
      ((unhex a <<< 4 ||| unhex b) % 256) :: unescapeBuild tl := by
  simp [unescapeBuild]

theorem unescapeBuild_plus (rest : GoString) :
    unescapeBuild (43 :: rest) = 32 :: unescapeBuild rest := by
  rcases rest with _ | ⟨a, _ | ⟨b, tl⟩⟩ <;> simp [unescapeBuild]

theorem unescapeBuild_other (c : Nat) (rest : GoString) (hc : c ≠ 37) (hp : c ≠ 43) :
    unescapeBuild (c :: rest) = c :: unescapeBuild rest := by
  rcases rest with _ | ⟨a, _ | ⟨b, tl⟩⟩ <;> simp [unescapeBuild, hc, hp]

theorem percentDecode_other (c : Nat) (rest : GoString) (hc : c ≠ 37) :
    percentDecode (c :: rest) = c :: percentDecode rest := by
  rcases rest with _ | ⟨a, _ | ⟨b, tl⟩⟩ <;> simp [percentDecode, hc]

theorem hasMalformedEscape_other (c : Nat) (rest : GoString) (hc : c ≠ 37) :
    hasMalformedEscape (c :: rest) = hasMalformedEscape rest := by
  simp [hasMalformedEscape, hc]

theorem hasMalformedEscape_bad (rest : GoString) (h : twoHexAhead rest = false) :
    hasMalformedEscape (37 :: rest) = true := by
  simp [hasMalformedEscape, h]

theorem twoHexAhead_cases (rest : GoString) :
    twoHexAhead rest = false ∨
      ∃ a b tl, rest = a :: b :: tl ∧ ishex a = true ∧ ishex b = true := by
  rcases rest with _ | ⟨a, _ | ⟨b, tl⟩⟩
  · left; rfl
  · left; rfl
  · by_cases h : (ishex a && ishex b) = true
    · right; exact ⟨a, b, tl, rfl, by simpa using h⟩
    · left; simpa [twoHexAhead] using h

/-- A malformed escape makes the scan fail, whatever the counters. -/
theorem unescapeScan_error_aux (k : Nat) : ∀ (s : GoString), s.length ≤ k →
    hasMalformedEscape s = true → ∀ n p, ∃ f, unescapeScan s n p = .error f := by
  induction k with
  | zero =>
    intro s hs h
    have : s = [] := List.length_eq_zero.mp (by omega)
    subst this
    simp [hasMalformedEscape] at h
  | succ k ih =>
    intro s hs h n p
    rcases s with _ | ⟨c, rest⟩
    · simp [hasMalformedEscape] at h
    · simp only [List.length_cons] at hs
      by_cases hc : c = 37
      · subst hc
        rcases twoHexAhead_cases rest with hbad | ⟨a, b, tl, rfl, ha, hb⟩
        · exact ⟨_, unescapeScan_bad rest n p hbad⟩
        · rw [hasMalformedEscape_escape a b tl ha hb] at h
          rw [unescapeScan_escape a b tl n p ha hb]
          exact ih tl (by simp at hs; omega) h _ _
      · rw [hasMalformedEscape_other c rest hc] at h
        by_cases hp : c = 43
        · subst hp
          rw [unescapeScan_plus]
          exact ih rest (by omega) h _ _
        · rw [unescapeScan_other c rest n p hc hp]
          exact ih rest (by omega) h _ _

/-- Without a malformed escape the scan succeeds; the counters only grow,
and when they are unchanged the string has neither `%` nor `+`, so the
second loop copies it. -/
theorem unescapeScan_ok_aux (k : Nat) : ∀ (s : GoString), s.length ≤ k →
    hasMalformedEscape s = false →
    ∀ n p, ∃ n1 p1, unescapeScan s n p = .ok (n1, p1) ∧ n ≤ n1 ∧
      (p1 = false → p = false) ∧ (n1 = n → p1 = false → unescapeBuild s = s) := by
  induction k with
  | zero =>
    intro s hs h n p
    have : s = [] := List.length_eq_zero.mp (by omega)
    subst this
    exact ⟨n, p, by simp [unescapeScan, unescapeBuild]⟩
  | succ k ih =>
    intro s hs h n p
    rcases s with _ | ⟨c, rest⟩
    · exact ⟨n, p, by simp [unescapeScan, unescapeBuild]⟩
    · simp only [List.length_cons] at hs
      by_cases hc : c = 37
      · subst hc
        rcases twoHexAhead_cases rest with hbad | ⟨a, b, tl, rfl, ha, hb⟩
        · rw [hasMalformedEscape_bad rest hbad] at h
          exact absurd h (by decide)
        · rw [hasMalformedEscape_escape a b tl ha hb] at h
          rw [unescapeScan_escape a b tl n p ha hb]
          obtain ⟨n1, p1, hf, hn, hp1, _⟩ := ih tl (by simp at hs; omega) h (n + 1) p
          exact ⟨n1, p1, hf, by omega, hp1, fun h1 => by omega⟩
      · rw [hasMalformedEscape_other c rest hc] at h
        by_cases hp : c = 43
        · subst hp
          rw [unescapeScan_plus]
          obtain ⟨n1, p1, hf, hn, hp1, _⟩ := ih rest (by omega) h n true
          refine ⟨n1, p1, hf, hn, ?_, ?_⟩
          · intro h1; simpa using hp1 h1
          · intro _ h1; simpa using hp1 h1
        · rw [unescapeScan_other c rest n p hc hp]
          obtain ⟨n1, p1, hf, hn, hp1, hb⟩ := ih rest (by omega) h n p
          refine ⟨n1, p1, hf, hn, hp1, ?_⟩
          intro h1 h3
          rw [unescapeBuild_other c rest hc hp, hb h1 h3]

/-- On a key without malformed escapes the second loop computes the
percent-decoding of the key in which every `+` was first made a space. -/
theorem unescapeBuild_eq_aux (k : Nat) : ∀ (s : GoString), s.length ≤ k →
    hasMalformedEscape s = false →
    unescapeBuild s = percentDecode (s.map plusToSpace) := by
  induction k with
  | zero =>
    intro s hs h
    have : s = [] := List.length_eq_zero.mp (by omega)
    subst this
    simp [unescapeBuild, percentDecode]
  | succ k ih =>
    intro s hs h
    rcases s with _ | ⟨c, rest⟩
    · simp [unescapeBuild, percentDecode]
    · simp only [List.length_cons] at hs
      by_cases hc : c = 37
      · subst hc
        rcases twoHexAhead_cases rest with hbad | ⟨a, b, tl, rfl, ha, hb⟩
        · rw [hasMalformedEscape_bad rest hbad] at h
          exact absurd h (by decide)
        · rw [hasMalformedEscape_escape a b tl ha hb] at h
          have ih2 := ih tl (by simp at hs; omega) h
          have hua := unhex_eq_hexValue a (ishex_lt a ha) ha
          have hub := unhex_eq_hexValue b (ishex_lt b hb) hb
          have hs2 := shift_or_nibbles (unhex a) hua.2 (unhex b) hub.2
          have pa : plusToSpace a = a := by simp [plusToSpace, ishex_ne_plus a ha]
          have pb : plusToSpace b = b := by simp [plusToSpace, ishex_ne_plus b hb]
          have p37 : plusToSpace 37 = 37 := by decide
          rw [unescapeBuild_escape, List.map_cons, List.map_cons, List.map_cons, pa, pb, p37,
            hs2, ih2, hua.1, hub.1]
          simp [percentDecode, ha, hb]
      · rw [hasMalformedEscape_other c rest hc] at h
        have ih2 := ih rest (by omega) h
        by_cases hp : c = 43
        · subst hp
          rw [unescapeBuild_plus, List.map_cons, ih2]
          have : plusToSpace 43 = 32 := by decide
          rw [this, percentDecode_other 32 _ (by decide)]
        · have hne : plusToSpace c = c := by simp [plusToSpace, hp]
          rw [unescapeBuild_other c rest hc hp, List.map_cons, ih2, hne,
            percentDecode_other c _ hc]

theorem unescapeScan_error (s : GoString) (h : hasMalformedEscape s = true) (n : Nat)
    (p : Bool) : ∃ f, unescapeScan s n p = .error f :=
  unescapeScan_error_aux s.length s (le_refl _) h n p

/-- Result of `QueryUnescape` on a key without malformed escapes. -/
theorem QueryUnescape_ok (s : GoString) (h : hasMalformedEscape s = false) :
    QueryUnescape s = .ok (percentDecode (s.map plusToSpace)) := by
  obtain ⟨n1, p1, hf, _, _, hb⟩ := unescapeScan_ok_aux s.length s (le_refl _) h 0 false
  have he := unescapeBuild_eq_aux s.length s (le_refl _) h
  unfold QueryUnescape
  rw [hf]
  by_cases hn : n1 = 0 ∧ p1 = false
  · simp only [hn, and_self, if_true]
    rw [← he, hb hn.1 hn.2]
  · simp only [hn, if_false, he]

/-- Result of `QueryUnescape` on a key with a malformed escape. -/
theorem QueryUnescape_error (s : GoString) (h : hasMalformedEscape s = true) :
    ∃ f, QueryUnescape s = .error (.escapeError f) := by
  obtain ⟨f, hf⟩ := unescapeScan_error s h 0 false
  exact ⟨f, by unfold QueryUnescape; rw [hf]⟩

/-! ## Lemmas on `handler` -/

theorem handler_of_key_error (g : Globals) (W : World) (event : Event) (e : Error)
    (h : QueryUnescape event.S3Key = .error e) :
    handler g W event =
      ⟨Response.zero, some (.errorf (str "failed to decode S3 key") e), []⟩ := by
  unfold handler; rw [h]

theorem handler_of_get_error (g : Globals) (W : World) (event : Event) (srcKey : GoString)
    (e : Error) (h : QueryUnescape event.S3Key = .ok srcKey)
    (hget : W.getObject event.S3Bucket srcKey = .error e) :
    handler g W event =
      ⟨Response.zero, some (.errorf (str "failed to get object from S3") e),
        [.getObject event.S3Bucket srcKey]⟩ := by
  unfold handler; rw [h]; simp only; rw [hget]

theorem handler_of_get_ok (g : Globals) (W : World) (event : Event) (srcKey : GoString)
    (body : List Nat) (h : QueryUnescape event.S3Key = .ok srcKey)
    (hget : W.getObject event.S3Bucket srcKey = .ok body) :
    handler g W event =
      ⟨(handlerBody g W srcKey body).response, (handlerBody g W srcKey body).err,
        .getObject event.S3Bucket srcKey :: (handlerBody g W srcKey body).calls ++
          [.bodyClose]⟩ := by
  unfold handler; rw [h]; simp only; rw [hget]

theorem handlerBody_of_decode_error (g : Globals) (W : World) (srcKey : GoString)
    (body : List Nat) (e : Error) (h : W.imageDecode body = .error e) :
    handlerBody g W srcKey body =
      ⟨Response.zero, some (.errorf (str "failed to decode image") e), []⟩ := by
  unfold handlerBody; rw [h]

theorem handlerBody_of_resize_panic (g : Globals) (W : World) (srcKey : GoString)
    (body : List Nat) (img : Image) (v : GoString) (h : W.imageDecode body = .ok img)
    (hres : Resize W.imaging img g.maxWidth g.maxHeight = .error v) :
    handlerBody g W srcKey body =
      ⟨Response.zero, some (.panic v), [.resize g.maxWidth g.maxHeight]⟩ := by
  unfold handlerBody; rw [h]; simp only; rw [hres]

theorem handlerBody_of_encode_error (g : Globals) (W : World) (srcKey : GoString)
    (body : List Nat) (img resized : Image) (e : Error) (h : W.imageDecode body = .ok img)
    (hres : Resize W.imaging img g.maxWidth g.maxHeight = .ok resized)
    (henc : W.encode resized = .error e) :
    handlerBody g W srcKey body =
      ⟨Response.zero, some (.errorf (str "failed to encode resized image") e),
        [.resize g.maxWidth g.maxHeight]⟩ := by
  unfold handlerBody; rw [h]; simp only; rw [hres]; simp only; rw [henc]

theorem handlerBody_of_put_error (g : Globals) (W : World) (srcKey : GoString)
    (body : List Nat) (img resized : Image) (buf : List Nat) (e : Error)
    (h : W.imageDecode body = .ok img)
    (hres : Resize W.imaging img g.maxWidth g.maxHeight = .ok resized)
    (henc : W.encode resized = .ok buf)
    (hput : W.putObject ⟨g.thumbnailBucket, str "resized-" ++ srcKey, buf, str "image/jpeg"⟩
      = some e) :
    handlerBody g W srcKey body =
      ⟨Response.zero, some (.errorf (str "failed to upload resized image to S3") e),
        [.resize g.maxWidth g.maxHeight,
          .putObject ⟨g.thumbnailBucket, str "resized-" ++ srcKey, buf, str "image/jpeg"⟩]⟩ := by
  unfold handlerBody; rw [h]; simp only; rw [hres]; simp only; rw [henc]; simp only; rw [hput]

theorem handlerBody_of_put_ok (g : Globals) (W : World) (srcKey : GoString)
    (body : List Nat) (img resized : Image) (buf : List Nat)
    (h : W.imageDecode body = .ok img)
    (hres : Resize W.imaging img g.maxWidth g.maxHeight = .ok resized)
    (henc : W.encode resized = .ok buf)
    (hput : W.putObject ⟨g.thumbnailBucket, str "resized-" ++ srcKey, buf, str "image/jpeg"⟩
      = none) :
    handlerBody g W srcKey body =
      ⟨⟨⟨str "resized-" ++ srcKey, g.thumbnailBucket⟩⟩, none,
        [.resize g.maxWidth g.maxHeight,
          .putObject ⟨g.thumbnailBucket, str "resized-" ++ srcKey, buf, str "image/jpeg"⟩]⟩ := by
  unfold handlerBody; rw [h]; simp only; rw [hres]; simp only; rw [henc]; simp only; rw [hput]

/-- Every run of `handler` is one of the seven runs of `Run`. -/
theorem handler_run (g : Globals) (W : World) (event : Event) :
    Run g W event (handler g W event) := by
  cases hkey : QueryUnescape event.S3Key with
  | error e => rw [handler_of_key_error g W event e hkey]; exact .keyError e hkey
  | ok srcKey =>
    cases hget : W.getObject event.S3Bucket srcKey with
    | error e =>
      rw [handler_of_get_error g W event srcKey e hkey hget]; exact .getError srcKey e hkey hget
    | ok body =>
      rw [handler_of_get_ok g W event srcKey body hkey hget]
      cases himg : W.imageDecode body with
      | error e =>
        rw [handlerBody_of_decode_error g W srcKey body e himg]
        exact .decodeError srcKey body e hkey hget himg
      | ok img =>
        cases hres : Resize W.imaging img g.maxWidth g.maxHeight with
        | error v =>
          rw [handlerBody_of_resize_panic g W srcKey body img v himg hres]
          exact .resizePanic srcKey body img v hkey hget himg hres
        | ok resized =>
          cases henc : W.encode resized with
          | error e =>
            rw [handlerBody_of_encode_error g W srcKey body img resized e himg hres henc]
            exact .encodeError srcKey body img resized e hkey hget himg hres henc
          | ok buf =>
            cases hput : W.putObject
                ⟨g.thumbnailBucket, str "resized-" ++ srcKey, buf, str "image/jpeg"⟩ with
            | some e =>
              rw [handlerBody_of_put_error g W srcKey body img resized buf e himg hres henc hput]
              exact .putError srcKey body img resized buf e hkey hget himg hres henc hput
            | none =>
              rw [handlerBody_of_put_ok g W srcKey body img resized buf himg hres henc hput]
              exact .success srcKey body img resized buf hkey hget himg hres henc hput

/-! ## The handler's contract -/

/-- C1: when the key decode, the fetch, the image decode, the encode and the
upload all succeed, `handler` returns a nil error and a response whose
`Thumbnail.S3Key` is `"resized-"` followed by the decoded key. -/
theorem handler_success_key (g : Globals) (W : World) (event : Event)
    (srcKey : GoString) (body : List Nat) (img resized : Image) (buf : List Nat)
    (hkey : QueryUnescape event.S3Key = .ok srcKey)
    (hget : W.getObject event.S3Bucket srcKey = .ok body)
    (himg : W.imageDecode body = .ok img)
    (hres : Resize W.imaging img g.maxWidth g.maxHeight = .ok resized)
    (henc : W.encode resized = .ok buf)
    (hput : W.putObject ⟨g.thumbnailBucket, str "resized-" ++ srcKey, buf, str "image/jpeg"⟩
      = none) :
    (handler g W event).err = none ∧
      (handler g W event).response.Thumbnail.S3Key = str "resized-" ++ srcKey := by
  rw [handler_of_get_ok g W event srcKey body hkey hget,
    handlerBody_of_put_ok g W srcKey body img resized buf himg hres henc hput]
  exact ⟨rfl, rfl⟩

/-- The end-to-end example: the key `cat%20photo.png` yields `resized-cat photo.png`. -/
theorem handler_success_key_witness :
    QueryUnescape sampleEvent.S3Key = .ok (str "cat photo.png") ∧
      (handler sampleGlobals sampleWorld sampleEvent).err = none ∧
      (handler sampleGlobals sampleWorld sampleEvent).response.Thumbnail.S3Key
        = str "resized-cat photo.png" :=
  ⟨rfl, handler_success_key sampleGlobals sampleWorld sampleEvent (str "cat photo.png") [1]
    ⟨400, 200, []⟩ ⟨100, 100, []⟩ [100, 100] rfl rfl rfl rfl rfl rfl⟩

/-- C2: a key with a malformed escape sequence makes `handler` return the
key-decode error, wrapping the `url.EscapeError`, without any call on the
storage client: neither `GetObject` nor `PutObject`. -/
theorem handler_malformed_key (g : Globals) (W : World) (event : Event)
    (h : hasMalformedEscape event.S3Key = true) :
    ∃ fragment,
      (handler g W event).err =
          some (.errorf (str "failed to decode S3 key") (.escapeError fragment)) ∧
        (handler g W event).response = Response.zero ∧
        (handler g W event).calls = [] := by
  obtain ⟨f, hf⟩ := QueryUnescape_error event.S3Key h
  exact ⟨f, by rw [handler_of_key_error g W event _ hf]; exact ⟨rfl, rfl, rfl⟩⟩

/-- The key `cat%2` has a `%` with one hex digit after it. -/
theorem handler_malformed_key_witness :
    hasMalformedEscape (str "cat%2") = true ∧
      ∃ fragment,
        (handler sampleGlobals sampleWorld ⟨str "src", str "cat%2"⟩).err =
            some (.errorf (str "failed to decode S3 key") (.escapeError fragment)) ∧
          (handler sampleGlobals sampleWorld ⟨str "src", str "cat%2"⟩).response
            = Response.zero ∧
          (handler sampleGlobals sampleWorld ⟨str "src", str "cat%2"⟩).calls = [] :=
  ⟨by decide, handler_malformed_key sampleGlobals sampleWorld ⟨str "src", str "cat%2"⟩
    (by decide)⟩

/-- C3: a failure before the upload is reported under its own context and no
upload happens: a failed `GetObject` gives `failed to get object from S3`
around the underlying error (and its text), a failed image decode gives
`failed to decode image`, a failed encode gives `failed to encode resized
image`; a panic of the resize step uploads nothing either. In every run
`PutObject` is called at most once, and a call means that the key decode, the
fetch, the image decode, the resize and the encode succeeded. -/
theorem handler_step_failure (g : Globals) (W : World) (event : Event) :
    (∀ srcKey e, QueryUnescape event.S3Key = .ok srcKey →
        W.getObject event.S3Bucket srcKey = .error e →
        (handler g W event).err = some (.errorf (str "failed to get object from S3") e) ∧
          (∀ quote, (handler g W event).err.map (Error.text quote) =
            some (str "failed to get object from S3: " ++ e.text quote)) ∧
          putCalls (handler g W event).calls = []) ∧
    (∀ srcKey body e, QueryUnescape event.S3Key = .ok srcKey →
        W.getObject event.S3Bucket srcKey = .ok body → W.imageDecode body = .error e →
        (handler g W event).err = some (.errorf (str "failed to decode image") e) ∧
          putCalls (handler g W event).calls = []) ∧
    (∀ srcKey body img resized e, QueryUnescape event.S3Key = .ok srcKey →
        W.getObject event.S3Bucket srcKey = .ok body → W.imageDecode body = .ok img →
        Resize W.imaging img g.maxWidth g.maxHeight = .ok resized →
        W.encode resized = .error e →
        (handler g W event).err = some (.errorf (str "failed to encode resized image") e) ∧
          putCalls (handler g W event).calls = []) ∧
    (∀ srcKey body img v, QueryUnescape event.S3Key = .ok srcKey →
        W.getObject event.S3Bucket srcKey = .ok body → W.imageDecode body = .ok img →
        Resize W.imaging img g.maxWidth g.maxHeight = .error v →
        (handler g W event).err = some (.panic v) ∧
          putCalls (handler g W event).calls = []) ∧
    (putCalls (handler g W event).calls).length ≤ 1 ∧
    (∀ input, input ∈ putCalls (handler g W event).calls →
        ∃ srcKey body img resized, QueryUnescape event.S3Key = .ok srcKey ∧
          W.getObject event.S3Bucket srcKey = .ok body ∧ W.imageDecode body = .ok img ∧
          Resize W.imaging img g.maxWidth g.maxHeight = .ok resized ∧
          W.encode resized = .ok input.Body) := by
  refine ⟨?_, ?_, ?_, ?_, ?_, ?_⟩
  · intro srcKey e hkey hget
    rw [handler_of_get_error g W event srcKey e hkey hget]
    refine ⟨rfl, ?_, rfl⟩
    intro quote
    simp [Error.text, str]
  · intro srcKey body e hkey hget himg
    rw [handler_of_get_ok g W event srcKey body hkey hget,
      handlerBody_of_decode_error g W srcKey body e himg]
    exact ⟨rfl, rfl⟩
  · intro srcKey body img resized e hkey hget himg hres henc
    rw [handler_of_get_ok g W event srcKey body hkey hget,
      handlerBody_of_encode_error g W srcKey body img resized e himg hres henc]
    exact ⟨rfl, rfl⟩
  · intro srcKey body img v hkey hget himg hres
    rw [handler_of_get_ok g W event srcKey body hkey hget,
      handlerBody_of_resize_panic g W srcKey body img v himg hres]
    exact ⟨rfl, rfl⟩
  · have h := handler_run g W event
    generalize handler g W event = out at h
    cases h <;> simp [putCalls]
  · have h := handler_run g W event
    generalize handler g W event = out at h
    cases h with
    | putError srcKey body img resized buf e hkey hget himg hres henc hput =>
      intro input hin
      simp only [putCalls, List.mem_singleton] at hin
      subst hin
      exact ⟨srcKey, body, img, resized, hkey, hget, himg, hres, henc⟩
    | success srcKey body img resized buf hkey hget himg hres henc hput =>
      intro input hin
      simp only [putCalls, List.mem_singleton] at hin
      subst hin
      exact ⟨srcKey, body, img, resized, hkey, hget, himg, hres, henc⟩
    | _ => intro input hin; simp [putCalls] at hin

/-- A missing source object: the fetch error is reported and nothing is uploaded. -/
theorem handler_step_failure_witness :
    (handler sampleGlobals notFoundWorld sampleEvent).err =
        some (.errorf (str "failed to get object from S3") (.external (str "NoSuchKey"))) ∧
      putCalls (handler sampleGlobals notFoundWorld sampleEvent).calls = [] ∧
      (handler sampleGlobals badImageWorld sampleEvent).err =
        some (.errorf (str "failed to decode image")
          (.external (str "image: unknown format"))) ∧
      putCalls (handler sampleGlobals badImageWorld sampleEvent).calls = [] :=
  ⟨((handler_step_failure sampleGlobals notFoundWorld sampleEvent).1 (str "cat photo.png")
      (.external (str "NoSuchKey")) rfl rfl).1,
    ((handler_step_failure sampleGlobals notFoundWorld sampleEvent).1 (str "cat photo.png")
      (.external (str "NoSuchKey")) rfl rfl).2.2,
    (handler_step_failure sampleGlobals badImageWorld sampleEvent).2.1 (str "cat photo.png")
      [1] (.external (str "image: unknown format")) rfl rfl rfl⟩

/-- C6: on a successful invocation `handler` makes exactly one `PutObject`
call; its bucket is the value of `THUMBNAIL_BUCKET` as `init` read it (the
empty string included), its key is `"resized-"` followed by the decoded key,
its content type is `image/jpeg`, the upload it stands for succeeded, and the
response names that call's bucket and key. -/
theorem handler_success_upload (getenv : GoString → GoString) (W : World) (event : Event)
    (h : (handler (init getenv) W event).err = none) :
    ∃ input, putCalls (handler (init getenv) W event).calls = [input] ∧
      input.Bucket = getenv (str "THUMBNAIL_BUCKET") ∧
      (∃ srcKey, QueryUnescape event.S3Key = .ok srcKey ∧
        input.Key = str "resized-" ++ srcKey) ∧
      input.ContentType = str "image/jpeg" ∧
      W.putObject input = none ∧
      (handler (init getenv) W event).response.Thumbnail.S3Bucket = input.Bucket ∧
      (handler (init getenv) W event).response.Thumbnail.S3Key = input.Key := by
  have hr := handler_run (init getenv) W event
  generalize handler (init getenv) W event = out at h hr
  cases hr with
  | success srcKey body img resized buf hkey hget himg hres henc hput =>
    exact ⟨_, rfl, rfl, ⟨srcKey, hkey, rfl⟩, rfl, hput, rfl, rfl⟩
  | _ => simp at h

/-- With no variable set, the thumbnail goes to the bucket with the empty name. -/
theorem handler_success_upload_witness :
    (handler (init emptyEnv) sampleWorld sampleEvent).err = none ∧
      ∃ input, putCalls (handler (init emptyEnv) sampleWorld sampleEvent).calls = [input] ∧
        input.Bucket = emptyEnv (str "THUMBNAIL_BUCKET") ∧
        (∃ srcKey, QueryUnescape sampleEvent.S3Key = .ok srcKey ∧
          input.Key = str "resized-" ++ srcKey) ∧
        input.ContentType = str "image/jpeg" ∧
        sampleWorld.putObject input = none ∧
        (handler (init emptyEnv) sampleWorld sampleEvent).response.Thumbnail.S3Bucket
          = input.Bucket ∧
        (handler (init emptyEnv) sampleWorld sampleEvent).response.Thumbnail.S3Key
          = input.Key :=
  ⟨by decide, handler_success_upload emptyEnv sampleWorld sampleEvent (by decide)⟩

/-- C8, as stated, fails: the key `a+b` has no escape at all, and it is
decoded to `a b`, which is not its percent-decoding `a+b`. -/
theorem percentDecode_plus_counterexample :
    hasMalformedEscape (str "a+b") = false ∧
      percentDecode (str "a+b") = str "a+b" ∧
      QueryUnescape (str "a+b") = .ok (str "a b") ∧
      QueryUnescape (str "a+b") ≠ .ok (percentDecode (str "a+b")) := by
  decide

/-- C8, amended: for a key whose escapes are well formed the decoding is
percent-decoding of the key in which every `+` was first replaced with a space
(so a key without `+` is percent-decoded as it is); the decoded key is the one
`GetObject` is called with, first of all calls, and a successful run returns it
behind `"resized-"`. -/
theorem handler_key_decoding (g : Globals) (W : World) (event : Event)
    (h : hasMalformedEscape event.S3Key = false) :
    QueryUnescape event.S3Key = .ok (percentDecode (event.S3Key.map plusToSpace)) ∧
      (43 ∉ event.S3Key → QueryUnescape event.S3Key = .ok (percentDecode event.S3Key)) ∧
      (handler g W event).calls.head? =
        some (.getObject event.S3Bucket (percentDecode (event.S3Key.map plusToSpace))) ∧
      ((handler g W event).err = none →
        (handler g W event).response.Thumbnail.S3Key =
          str "resized-" ++ percentDecode (event.S3Key.map plusToSpace)) := by
  have hq := QueryUnescape_ok event.S3Key h
  refine ⟨hq, ?_, ?_, ?_⟩
  · intro hplus
    have hmap : event.S3Key.map plusToSpace = event.S3Key := by
      conv_rhs => rw [← List.map_id event.S3Key]
      apply List.map_congr_left
      intro c hc
      have : c ≠ 43 := fun h43 => hplus (h43 ▸ hc)
      simp [plusToSpace, this]
    rw [hq, hmap]
  · have hr := handler_run g W event
    generalize handler g W event = out at hr
    cases hr with
    | keyError e hkey => rw [hq] at hkey; cases hkey
    | getError srcKey e hkey => rw [hq] at hkey; cases hkey; rfl
    | decodeError srcKey body e hkey => rw [hq] at hkey; cases hkey; rfl
    | resizePanic srcKey body img v hkey => rw [hq] at hkey; cases hkey; rfl
    | encodeError srcKey body img resized e hkey => rw [hq] at hkey; cases hkey; rfl
    | putError srcKey body img resized buf e hkey => rw [hq] at hkey; cases hkey; rfl
    | success srcKey body img resized buf hkey => rw [hq] at hkey; cases hkey; rfl
  · have hr := handler_run g W event
    generalize handler g W event = out at hr
    cases hr with
    | success srcKey body img resized buf hkey => rw [hq] at hkey; cases hkey; intro _; rfl
    | _ => intro h; simp at h

/-- The key `a+b%2Bc` is decoded to `a b+c`. -/
theorem handler_key_decoding_witness :
    hasMalformedEscape (str "a+b%2Bc") = false ∧
      QueryUnescape (str "a+b%2Bc") = .ok (str "a b+c") ∧
      (handler sampleGlobals sampleWorld ⟨str "src", str "a+b%2Bc"⟩).calls.head? =
        some (.getObject (str "src") (str "a b+c")) :=
  ⟨by decide,
    (handler_key_decoding sampleGlobals sampleWorld ⟨str "src", str "a+b%2Bc"⟩ (by decide)).1,
    (handler_key_decoding sampleGlobals sampleWorld ⟨str "src", str "a+b%2Bc"⟩
      (by decide)).2.2.1⟩

/-- C9: when `GetObject` succeeds the body is closed exactly once, as the last
thing the handler does, whichever way it returns; when the key decode or
`GetObject` fails nothing is closed. -/
theorem handler_body_close (g : Globals) (W : World) (event : Event) :
    (∀ srcKey body, QueryUnescape event.S3Key = .ok srcKey →
        W.getObject event.S3Bucket srcKey = .ok body →
        (handler g W event).calls.count .bodyClose = 1 ∧
          (handler g W event).calls.getLast? = some .bodyClose) ∧
    (∀ e, QueryUnescape event.S3Key = .error e →
        (handler g W event).calls.count .bodyClose = 0) ∧
    (∀ srcKey e, QueryUnescape event.S3Key = .ok srcKey →
        W.getObject event.S3Bucket srcKey = .error e →
        (handler g W event).calls.count .bodyClose = 0) := by
  refine ⟨?_, ?_, ?_⟩
  · intro srcKey body hkey hget
    have hr := handler_run g W event
    generalize handler g W event = out at hr
    cases hr with
    | keyError e hkey2 => rw [hkey] at hkey2; cases hkey2
    | getError k e hkey2 hget2 =>
      rw [hkey] at hkey2; cases hkey2; rw [hget] at hget2; cases hget2
    | _ => simp [List.count_cons]
  · intro e hkey
    rw [handler_of_key_error g W event e hkey]
    rfl
  · intro srcKey e hkey hget
    rw [handler_of_get_error g W event srcKey e hkey hget]
    simp [List.count_cons]

/-- The body is closed once on success and once when the image does not
decode, and never when the object is missing. -/
theorem handler_body_close_witness :
    (handler sampleGlobals sampleWorld sampleEvent).calls.count .bodyClose = 1 ∧
      (handler sampleGlobals badImageWorld sampleEvent).calls.count .bodyClose = 1 ∧
      (handler sampleGlobals notFoundWorld sampleEvent).calls.count .bodyClose = 0 :=
  ⟨((handler_body_close sampleGlobals sampleWorld sampleEvent).1 (str "cat photo.png") [1]
      rfl rfl).1,
    ((handler_body_close sampleGlobals badImageWorld sampleEvent).1 (str "cat photo.png") [1]
      rfl rfl).1,
    (handler_body_close sampleGlobals notFoundWorld sampleEvent).2.2 (str "cat photo.png")
      (.external (str "NoSuchKey")) rfl rfl⟩

/-! ## The resize step -/

theorem rectSide_of_nonneg (x : Int) (h : 0 ≤ x) : rectSide x = x := by
  unfold rectSide
  split_ifs with h0
  · omega
  · rfl

theorem mul3NonNeg_args (x y z : Int) (h : 0 ≤ mul3NonNeg x y z) : 0 ≤ x ∧ 0 ≤ y ∧ 0 ≤ z := by
  by_contra hneg
  have hor : x < 0 ∨ y < 0 ∨ z < 0 := by omega
  unfold mul3NonNeg at h
  simp only [hor, if_true] at h
  omega

theorem mul3NonNeg_eq (x y z : Int) (hx : 0 ≤ x) (hy : 0 ≤ y) (hz : 0 < z)
    (hlt : x * y * z < 2 ^ 63) : mul3NonNeg x y z = x * y * z := by
  have hxy : 0 ≤ x * y := mul_nonneg hx hy
  have hle : x * y ≤ x * y * z := by nlinarith
  have h1 : x * y / 2 ^ 64 = 0 := Int.ediv_eq_zero_of_lt hxy (by omega)
  have h2 : x * y % 2 ^ 64 = x * y := Int.emod_eq_of_lt hxy (by omega)
  have hxyz : 0 ≤ x * y * z := mul_nonneg hxy (le_of_lt hz)
  have h3 : x * y * z / 2 ^ 64 = 0 := Int.ediv_eq_zero_of_lt hxyz (by omega)
  have h4 : x * y * z % 2 ^ 64 = x * y * z := Int.emod_eq_of_lt hxyz (by omega)
  have h5 : toInt64 (x * y * z) = x * y * z := by
    unfold toInt64
    rw [Int.emod_eq_of_lt (by omega) (by omega)]
    omega
  have hnot : ¬ (x < 0 ∨ y < 0 ∨ z < 0) := by omega
  unfold mul3NonNeg
  simp only [hnot, if_false, h1, h2, h3, h4, h5, ne_eq, not_true_eq_false]
  have h6 : ¬ (x * y * z < 0) := by omega
  simp only [h6, if_false]

/-- A `NewNRGBA` that returns gives the sides of the rectangle, both non-negative. -/
theorem NewNRGBA_ok (L : Imaging) (w h dx dy : Int) (hok : NewNRGBA L w h = .ok (dx, dy)) :
    dx = rectSide w ∧ dy = rectSide h ∧ 0 ≤ dx ∧ 0 ≤ dy := by
  unfold NewNRGBA at hok
  simp only at hok
  split_ifs at hok with hneg
  have hargs := mul3NonNeg_args 4 (rectSide w) (rectSide h) (by omega)
  cases hm : L.make (mul3NonNeg 4 (rectSide w) (rectSide h)) with
  | some v => rw [hm] at hok; cases hok
  | none =>
    rw [hm] at hok
    simp only [Except.ok.injEq, Prod.mk.injEq] at hok
    obtain ⟨h1, h2⟩ := hok
    subst h1; subst h2
    exact ⟨rfl, rfl, hargs.2.1, hargs.2.2⟩

/-- The function `NewNRGBA` returns when the sides are positive, the buffer
length fits an `int`, and the buffer can be had. -/
theorem NewNRGBA_returns (L : Imaging) (w h : Int) (hw : 0 < w) (hh : 0 < h)
    (hlt : 4 * w * h < 2 ^ 63) (hmake : L.make (4 * w * h) = none) :
    NewNRGBA L w h = .ok (w, h) := by
  unfold NewNRGBA
  simp only [rectSide_of_nonneg w (le_of_lt hw), rectSide_of_nonneg h (le_of_lt hh),
    mul3NonNeg_eq 4 w h (by omega) (le_of_lt hw) hh hlt]
  have hpos : ¬ (4 * w * h < 0) := by
    have : 0 ≤ 4 * w * h := mul_nonneg (mul_nonneg (by omega) (le_of_lt hw)) (le_of_lt hh)
    omega
  simp only [hpos, if_false, hmake]

theorem resizeHorizontal_ok (L : Imaging) (img : Image) (width : Int) (r : Image)
    (hok : resizeHorizontal L img width = .ok r) :
    r.dx = rectSide width ∧ r.dy = rectSide img.dy ∧ 0 ≤ r.dx ∧ 0 ≤ r.dy := by
  unfold resizeHorizontal at hok
  cases hn : NewNRGBA L width img.dy with
  | error v => rw [hn] at hok; cases hok
  | ok d =>
    obtain ⟨dx, dy⟩ := d
    rw [hn] at hok
    simp only at hok
    cases hr : L.resample img width img.dy with
    | error v => rw [hr] at hok; cases hok
    | ok pix =>
      rw [hr] at hok
      simp only [Except.ok.injEq] at hok
      subst hok
      exact NewNRGBA_ok L width img.dy dx dy hn

theorem resizeVertical_ok (L : Imaging) (img : Image) (height : Int) (r : Image)
    (hok : resizeVertical L img height = .ok r) :
    r.dx = rectSide img.dx ∧ r.dy = rectSide height ∧ 0 ≤ r.dx ∧ 0 ≤ r.dy := by
  unfold resizeVertical at hok
  cases hn : NewNRGBA L img.dx height with
  | error v => rw [hn] at hok; cases hok
  | ok d =>
    obtain ⟨dx, dy⟩ := d
    rw [hn] at hok
    simp only at hok
    cases hr : L.resample img img.dx height with
    | error v => rw [hr] at hok; cases hok
    | ok pix =>
      rw [hr] at hok
      simp only [Except.ok.injEq] at hok
      subst hok
      exact NewNRGBA_ok L img.dx height dx dy hn

theorem Clone_ok (L : Imaging) (img r : Image) (hok : Clone L img = .ok r) :
    r.dx = rectSide img.dx ∧ r.dy = rectSide img.dy := by
  unfold Clone at hok
  cases hn : NewNRGBA L img.dx img.dy with
  | error v => rw [hn] at hok; cases hok
  | ok d =>
    obtain ⟨dx, dy⟩ := d
    rw [hn] at hok
    simp only [Except.ok.injEq] at hok
    subst hok
    have h := NewNRGBA_ok L img.dx img.dy dx dy hn
    exact ⟨h.1, h.2.1⟩

/-- The last four branches of `Resize`, for a non-empty source: a result has
the sides of the destination rectangle. -/
theorem Resize_branches_ok (L : Imaging) (img r : Image) (dW dH : Int)
    (hx : 0 < img.dx) (hy : 0 < img.dy)
    (hok : (if img.dx ≠ dW ∧ img.dy ≠ dH then
        match resizeHorizontal L img dW with
        | .error v => .error v
        | .ok tmp => resizeVertical L tmp dH
      else if img.dx ≠ dW then resizeHorizontal L img dW
      else if img.dy ≠ dH then resizeVertical L img dH
      else Clone L img) = .ok r) :
    r.dx = rectSide dW ∧ r.dy = rectSide dH := by
  have sx := rectSide_of_nonneg img.dx (le_of_lt hx)
  have sy := rectSide_of_nonneg img.dy (le_of_lt hy)
  by_cases h1 : img.dx ≠ dW ∧ img.dy ≠ dH
  · rw [if_pos h1] at hok
    cases hH : resizeHorizontal L img dW with
    | error v => rw [hH] at hok; cases hok
    | ok tmp =>
      rw [hH] at hok
      simp only at hok
      have ht := resizeHorizontal_ok L img dW tmp hH
      have hv := resizeVertical_ok L tmp dH r hok
      rw [hv.1, hv.2.1, rectSide_of_nonneg tmp.dx ht.2.2.1, ht.1]
      exact ⟨rfl, rfl⟩
  · rw [if_neg h1] at hok
    by_cases h2 : img.dx ≠ dW
    · rw [if_pos h2] at hok
      have hdy : img.dy = dH := by
        by_contra hne; exact h1 ⟨h2, hne⟩
      have ht := resizeHorizontal_ok L img dW r hok
      rw [ht.1, ht.2.1, hdy]
      exact ⟨rfl, rfl⟩
    · rw [if_neg h2] at hok
      have hdx : img.dx = dW := not_not.mp h2
      by_cases h3 : img.dy ≠ dH
      · rw [if_pos h3] at hok
        have ht := resizeVertical_ok L img dH r hok
        rw [ht.1, ht.2.1, hdx]
        exact ⟨rfl, rfl⟩
      · rw [if_neg h3] at hok
        have hdy : img.dy = dH := not_not.mp h3
        have ht := Clone_ok L img r hok
        rw [ht.1, ht.2, hdx, hdy]
        exact ⟨rfl, rfl⟩

/-- For a non-empty source and non-negative limits that are not both 0, a
result of `Resize` has the sides of the destination rectangle, a limit 0
being replaced with the scaled other side. -/
theorem Resize_ok_dims (L : Imaging) (img r : Image) (w h : Int)
    (hw : 0 ≤ w) (hh : 0 ≤ h) (hnz : ¬ (w = 0 ∧ h = 0))
    (hx : 0 < img.dx) (hy : 0 < img.dy) (hok : Resize L img w h = .ok r) :
    r.dx = rectSide (if w = 0 then L.scale h img.dx img.dy else w) ∧
      r.dy = rectSide (if h = 0 then
        L.scale (if w = 0 then L.scale h img.dx img.dy else w) img.dy img.dx else h) := by
  unfold Resize at hok
  have h1 : ¬ (w < 0 ∨ h < 0) := by omega
  have h3 : ¬ (img.dx ≤ 0 ∨ img.dy ≤ 0) := by omega
  simp only [h1, hnz, h3, if_false] at hok
  exact Resize_branches_ok L img r _ _ hx hy hok

/-- With both limits positive, a result of `Resize` has exactly the limits'
size for a non-empty source, and is the empty image otherwise. -/
theorem Resize_dims (L : Imaging) (img r : Image) (w h : Int) (hw : 0 < w) (hh : 0 < h)
    (hok : Resize L img w h = .ok r) :
    (r.dx = w ∧ r.dy = h) ∨ ((img.dx ≤ 0 ∨ img.dy ≤ 0) ∧ r.dx = 0 ∧ r.dy = 0) := by
  by_cases hsrc : img.dx ≤ 0 ∨ img.dy ≤ 0
  · right
    unfold Resize at hok
    have h1 : ¬ (w < 0 ∨ h < 0) := by omega
    have h2 : ¬ (w = 0 ∧ h = 0) := by omega
    simp only [h1, h2, if_false, hsrc, if_true, Except.ok.injEq] at hok
    subst hok
    exact ⟨hsrc, rfl, rfl⟩
  · left
    have hd := Resize_ok_dims L img r w h (le_of_lt hw) (le_of_lt hh) (by omega)
      (by omega) (by omega) hok
    have hw0 : w ≠ 0 := by omega
    have hh0 : h ≠ 0 := by omega
    simp only [hw0, hh0, if_false] at hd
    rw [rectSide_of_nonneg w (le_of_lt hw), rectSide_of_nonneg h (le_of_lt hh)] at hd
    exact hd

theorem four_mul_le (a b A B : Int) (ha : 0 ≤ a) (hb : 0 ≤ b) (haA : a ≤ A) (hbB : b ≤ B) :
    4 * a * b ≤ 4 * A * B := by
  have h := mul_le_mul haA hbB hb (le_trans ha haA)
  nlinarith

theorem resizeHorizontal_returns (L : Imaging) (img : Image) (width A B : Int)
    (hw : 0 < width) (hy : 0 < img.dy) (hwA : width ≤ A) (hyB : img.dy ≤ B)
    (hlt : 4 * A * B < 2 ^ 63) (hp : Provides L A B) :
    ∃ pix, resizeHorizontal L img width = .ok ⟨width, img.dy, pix⟩ := by
  have hle := four_mul_le width img.dy A B (le_of_lt hw) (le_of_lt hy) hwA hyB
  obtain ⟨pix, hpix⟩ := hp.2 img width img.dy hwA hyB
  refine ⟨pix, ?_⟩
  unfold resizeHorizontal
  rw [NewNRGBA_returns L width img.dy hw hy (by omega) (hp.1 _ hle)]
  simp only
  rw [hpix]

theorem resizeVertical_returns (L : Imaging) (img : Image) (height A B : Int)
    (hx : 0 < img.dx) (hh : 0 < height) (hxA : img.dx ≤ A) (hhB : height ≤ B)
    (hlt : 4 * A * B < 2 ^ 63) (hp : Provides L A B) :
    ∃ pix, resizeVertical L img height = .ok ⟨img.dx, height, pix⟩ := by
  have hle := four_mul_le img.dx height A B (le_of_lt hx) (le_of_lt hh) hxA hhB
  obtain ⟨pix, hpix⟩ := hp.2 img img.dx height hxA hhB
  refine ⟨pix, ?_⟩
  unfold resizeVertical
  rw [NewNRGBA_returns L img.dx height hx hh (by omega) (hp.1 _ hle)]
  simp only
  rw [hpix]

/-- The last four branches of `Resize` return, for a non-empty source and a
positive destination size, when the largest buffer length fits an `int` and
the run-time system provides the buffers. -/
theorem Resize_branches_returns (L : Imaging) (img : Image) (dW dH : Int)
    (hw : 0 < dW) (hh : 0 < dH) (hx : 0 < img.dx) (hy : 0 < img.dy)
    (hlt : 4 * max dW img.dx * max dH img.dy < 2 ^ 63)
    (hp : Provides L (max dW img.dx) (max dH img.dy)) :
    ∃ r, (if img.dx ≠ dW ∧ img.dy ≠ dH then
        match resizeHorizontal L img dW with
        | .error v => .error v
        | .ok tmp => resizeVertical L tmp dH
      else if img.dx ≠ dW then resizeHorizontal L img dW
      else if img.dy ≠ dH then resizeVertical L img dH
      else Clone L img) = .ok r := by
  have hwA : dW ≤ max dW img.dx := le_max_left _ _
  have hxA : img.dx ≤ max dW img.dx := le_max_right _ _
  have hhB : dH ≤ max dH img.dy := le_max_left _ _
  have hyB : img.dy ≤ max dH img.dy := le_max_right _ _
  by_cases c1 : img.dx ≠ dW ∧ img.dy ≠ dH
  · rw [if_pos c1]
    obtain ⟨pix, hH⟩ := resizeHorizontal_returns L img dW _ _ hw hy hwA hyB hlt hp
    rw [hH]
    simp only
    obtain ⟨pix2, hV⟩ :=
      resizeVertical_returns L ⟨dW, img.dy, pix⟩ dH _ _ hw hh hwA hhB hlt hp
    exact ⟨_, hV⟩
  · rw [if_neg c1]
    by_cases c2 : img.dx ≠ dW
    · rw [if_pos c2]
      obtain ⟨pix, hH⟩ := resizeHorizontal_returns L img dW _ _ hw hy hwA hyB hlt hp
      exact ⟨_, hH⟩
    · rw [if_neg c2]
      by_cases c3 : img.dy ≠ dH
      · rw [if_pos c3]
        obtain ⟨pix, hV⟩ := resizeVertical_returns L img dH _ _ hx hh hxA hhB hlt hp
        exact ⟨_, hV⟩
      · rw [if_neg c3]
        have hle := four_mul_le img.dx img.dy _ _ (le_of_lt hx) (le_of_lt hy) hxA hyB
        unfold Clone
        rw [NewNRGBA_returns L img.dx img.dy hx hy (by omega) (hp.1 _ hle)]
        exact ⟨_, rfl⟩

/-- For a non-empty source and non-negative limits that are not both 0,
`Resize` returns when the destination size is positive, the largest buffer
length fits an `int` and the run-time system provides the buffers. -/
theorem Resize_returns (L : Imaging) (img : Image) (w h : Int)
    (hw : 0 ≤ w) (hh : 0 ≤ h) (hnz : ¬ (w = 0 ∧ h = 0))
    (hx : 0 < img.dx) (hy : 0 < img.dy)
    (hW : 0 < (if w = 0 then L.scale h img.dx img.dy else w))
    (hH : 0 < (if h = 0 then
      L.scale (if w = 0 then L.scale h img.dx img.dy else w) img.dy img.dx else h))
    (hlt : 4 * max (if w = 0 then L.scale h img.dx img.dy else w) img.dx *
      max (if h = 0 then
        L.scale (if w = 0 then L.scale h img.dx img.dy else w) img.dy img.dx else h) img.dy
      < 2 ^ 63)
    (hp : Provides L (max (if w = 0 then L.scale h img.dx img.dy else w) img.dx)
      (max (if h = 0 then
        L.scale (if w = 0 then L.scale h img.dx img.dy else w) img.dy img.dx else h) img.dy)) :
    ∃ r, Resize L img w h = .ok r := by
  unfold Resize
  have h1 : ¬ (w < 0 ∨ h < 0) := by omega
  have h3 : ¬ (img.dx ≤ 0 ∨ img.dy ≤ 0) := by omega
  simp only [h1, hnz, h3, if_false]
  exact Resize_branches_returns L img _ _ hW hH hx hy hlt hp

/-- A side within one pixel of the scaled side, next to a side that is scaled
exactly, keeps the aspect ratio. -/
theorem scaled_of_accurate (srcA srcB s b : Int) (hB : 0 < srcB)
    (hacc : |(s : ℚ) - (b : ℚ) * srcA / srcB| < 1) :
    ∃ f : ℚ, |(s : ℚ) - f * srcA| < 1 ∧ |(b : ℚ) - f * srcB| < 1 := by
  have hne : (srcB : ℚ) ≠ 0 := by exact_mod_cast (ne_of_gt hB)
  refine ⟨(b : ℚ) / srcB, ?_, ?_⟩
  · rw [div_mul_eq_mul_div]
    exact hacc
  · rw [div_mul_cancel₀ _ hne]
    simp

theorem nonneg_of_accurate (srcA srcB s b : Int) (hA : 0 < srcA) (hB : 0 < srcB) (hb : 0 < b)
    (hacc : |(s : ℚ) - (b : ℚ) * srcA / srcB| < 1) : 0 ≤ s := by
  have hq : (0 : ℚ) < (b : ℚ) * srcA / srcB := by
    have h1 : (0 : ℚ) < b := by exact_mod_cast hb
    have h2 : (0 : ℚ) < srcA := by exact_mod_cast hA
    have h3 : (0 : ℚ) < srcB := by exact_mod_cast hB
    positivity
  rw [abs_lt] at hacc
  have hs : (-1 : ℚ) < s := by linarith [hacc.1]
  have hs2 : (-1 : Int) < s := by exact_mod_cast hs
  omega

/-- C4, as stated, fails: `MAX_WIDTH=-1` is a configured limit, the resize
step then returns the empty image, whose width 0 is above the limit, and that
image is encoded and uploaded. -/
theorem resize_limit_counterexample :
    init (sizeEnv (str "-1") (str "100")) = ⟨-1, 100, []⟩ ∧
      Resize sampleWorld.imaging ⟨400, 200, []⟩
          (init (sizeEnv (str "-1") (str "100"))).maxWidth
          (init (sizeEnv (str "-1") (str "100"))).maxHeight = .ok ⟨0, 0, []⟩ ∧
      ¬ ((⟨0, 0, []⟩ : Image).dx ≤ (init (sizeEnv (str "-1") (str "100"))).maxWidth) ∧
      putCalls (handler (init (sizeEnv (str "-1") (str "100"))) sampleWorld sampleEvent).calls
        = [⟨[], str "resized-cat photo.png", [0, 0], str "image/jpeg"⟩] := by
  decide

/-- C4, amended: when both configured limits are positive, the image that was
encoded into an uploaded body is the result of the resize step and has
width ≤ `maxWidth` and height ≤ `maxHeight`. -/
theorem handler_upload_within_limits (g : Globals) (W : World) (event : Event)
    (input : PutObjectInput) (hw : 0 < g.maxWidth) (hh : 0 < g.maxHeight)
    (hin : input ∈ putCalls (handler g W event).calls) :
    ∃ img resized, Resize W.imaging img g.maxWidth g.maxHeight = .ok resized ∧
      W.encode resized = .ok input.Body ∧
      resized.dx ≤ g.maxWidth ∧ resized.dy ≤ g.maxHeight := by
  have hdims : ∀ img resized, Resize W.imaging img g.maxWidth g.maxHeight = .ok resized →
      resized.dx ≤ g.maxWidth ∧ resized.dy ≤ g.maxHeight := by
    intro img resized hok
    rcases Resize_dims W.imaging img resized g.maxWidth g.maxHeight hw hh hok
      with ⟨h1, h2⟩ | ⟨_, h1, h2⟩
    · omega
    · omega
  have hr := handler_run g W event
  generalize handler g W event = out at hr hin
  cases hr with
  | putError srcKey body img resized buf e hkey hget himg hres henc hput =>
    simp only [putCalls, List.mem_singleton] at hin
    subst hin
    exact ⟨img, resized, hres, henc, hdims img resized hres⟩
  | success srcKey body img resized buf hkey hget himg hres henc hput =>
    simp only [putCalls, List.mem_singleton] at hin
    subst hin
    exact ⟨img, resized, hres, henc, hdims img resized hres⟩
  | _ => simp [putCalls] at hin

/-- The end-to-end example: limits 100×100, and the uploaded image is within them. -/
theorem handler_upload_within_limits_witness :
    (0 : Int) < sampleGlobals.maxWidth ∧ (0 : Int) < sampleGlobals.maxHeight ∧
      ∃ img resized,
        Resize sampleWorld.imaging img sampleGlobals.maxWidth sampleGlobals.maxHeight
          = .ok resized ∧
        sampleWorld.encode resized = .ok [100, 100] ∧
        resized.dx ≤ sampleGlobals.maxWidth ∧ resized.dy ≤ sampleGlobals.maxHeight :=
  ⟨by decide, by decide,
    handler_upload_within_limits sampleGlobals sampleWorld sampleEvent
      ⟨str "thumbs", str "resized-cat photo.png", [100, 100], str "image/jpeg"⟩
      (by decide) (by decide) (by decide)⟩

/-- C5, as stated, fails: a 400×200 source with limits 100×100 is resized to
100×100, not 100×50, the uploaded body is that of the 100×100 image, and no
common factor scales 400×200 to 100×100, even within a whole pixel. -/
theorem resize_aspect_counterexample :
    Resize sampleWorld.imaging ⟨400, 200, []⟩ 100 100 = .ok ⟨100, 100, []⟩ ∧
      (⟨100, 100, []⟩ : Image).dy ≠ 50 ∧
      putCalls (handler sampleGlobals sampleWorld sampleEvent).calls =
        [⟨str "thumbs", str "resized-cat photo.png", [100, 100], str "image/jpeg"⟩] ∧
      ¬ ScaledByCommonFactor 400 200 (⟨100, 100, []⟩ : Image).dx
          (⟨100, 100, []⟩ : Image).dy := by
  refine ⟨by decide, by decide, by decide, ?_⟩
  rintro ⟨f, h1, h2⟩
  rw [abs_lt] at h1 h2
  push_cast at h1 h2
  linarith [h1.1, h1.2, h2.1, h2.2]

/-- C5, amended: for a non-empty source the resize step keeps the aspect
ratio only when exactly one limit is 0. With both limits positive every image
it returns is exactly `maxWidth`×`maxHeight`, whatever the proportions of the
source. With a limit 0 and the other positive, the side of the limit 0 is the
scaled side `int(max(1, floor(limit*src/src' + 0.5)))` and the other side is
the limit, which keeps the ratio when the scaled side is within a pixel of the
exact quotient. In each mode the step returns when the destination size is
positive, the largest pixel buffer length fits an `int` and the run-time
system provides the buffers; otherwise it panics and there is no image. -/
theorem resize_exact_dims (L : Imaging) (img : Image) (hx : 0 < img.dx) (hy : 0 < img.dy) :
    (∀ w h, 0 < w → 0 < h →
      (∀ r, Resize L img w h = .ok r → r.dx = w ∧ r.dy = h) ∧
      (4 * max w img.dx * max h img.dy < 2 ^ 63 →
        Provides L (max w img.dx) (max h img.dy) →
        ∃ r, Resize L img w h = .ok r ∧ r.dx = w ∧ r.dy = h)) ∧
    (∀ h, 0 < h →
      (∀ r, Resize L img 0 h = .ok r →
        r.dx = rectSide (L.scale h img.dx img.dy) ∧ r.dy = h ∧
        (|((L.scale h img.dx img.dy : Int) : ℚ) - (h : ℚ) * img.dx / img.dy| < 1 →
          r.dx = L.scale h img.dx img.dy ∧
            ScaledByCommonFactor img.dx img.dy r.dx r.dy)) ∧
      (0 < L.scale h img.dx img.dy →
        4 * max (L.scale h img.dx img.dy) img.dx * max h img.dy < 2 ^ 63 →
        Provides L (max (L.scale h img.dx img.dy) img.dx) (max h img.dy) →
        ∃ r, Resize L img 0 h = .ok r)) ∧
    (∀ w, 0 < w →
      (∀ r, Resize L img w 0 = .ok r →
        r.dx = w ∧ r.dy = rectSide (L.scale w img.dy img.dx) ∧
        (|((L.scale w img.dy img.dx : Int) : ℚ) - (w : ℚ) * img.dy / img.dx| < 1 →
          r.dy = L.scale w img.dy img.dx ∧
            ScaledByCommonFactor img.dx img.dy r.dx r.dy)) ∧
      (0 < L.scale w img.dy img.dx →
        4 * max w img.dx * max (L.scale w img.dy img.dx) img.dy < 2 ^ 63 →
        Provides L (max w img.dx) (max (L.scale w img.dy img.dx) img.dy) →
        ∃ r, Resize L img w 0 = .ok r)) := by
  refine ⟨?_, ?_, ?_⟩
  · intro w h hw hh
    have hdims : ∀ r, Resize L img w h = .ok r → r.dx = w ∧ r.dy = h := by
      intro r hok
      rcases Resize_dims L img r w h hw hh hok with hd | ⟨h0, _, _⟩
      · exact hd
      · omega
    refine ⟨hdims, ?_⟩
    intro hlt hp
    have hw0 : w ≠ 0 := by omega
    have hh0 : h ≠ 0 := by omega
    obtain ⟨r, hr⟩ := Resize_returns L img w h (le_of_lt hw) (le_of_lt hh) (by omega) hx hy
      (by simpa [hw0] using hw) (by simpa [hh0] using hh)
      (by simpa [hw0, hh0] using hlt) (by simpa [hw0, hh0] using hp)
    exact ⟨r, hr, hdims r hr⟩
  · intro h hh
    have hh0 : h ≠ 0 := by omega
    refine ⟨?_, ?_⟩
    · intro r hok
      have hd := Resize_ok_dims L img r 0 h (le_refl _) (le_of_lt hh) (by omega) hx hy hok
      simp only [if_true, hh0, if_false] at hd
      rw [rectSide_of_nonneg h (le_of_lt hh)] at hd
      refine ⟨hd.1, hd.2, ?_⟩
      intro hacc
      have hs := nonneg_of_accurate img.dx img.dy _ h hx hy hh hacc
      have hdx : r.dx = L.scale h img.dx img.dy := by
        rw [hd.1, rectSide_of_nonneg _ hs]
      refine ⟨hdx, ?_⟩
      rw [hdx, hd.2]
      exact scaled_of_accurate img.dx img.dy _ h hy hacc
    · intro hs hlt hp
      exact Resize_returns L img 0 h (le_refl _) (le_of_lt hh) (by omega) hx hy
        (by simpa using hs) (by simpa [hh0] using hh)
        (by simpa [hh0] using hlt) (by simpa [hh0] using hp)
  · intro w hw
    have hw0 : w ≠ 0 := by omega
    refine ⟨?_, ?_⟩
    · intro r hok
      have hd := Resize_ok_dims L img r w 0 (le_of_lt hw) (le_refl _) (by omega) hx hy hok
      simp only [hw0, if_true, if_false] at hd
      rw [rectSide_of_nonneg w (le_of_lt hw)] at hd
      refine ⟨hd.1, hd.2, ?_⟩
      intro hacc
      have hs := nonneg_of_accurate img.dy img.dx _ w hy hx hw hacc
      have hdy : r.dy = L.scale w img.dy img.dx := by
        rw [hd.2, rectSide_of_nonneg _ hs]
      refine ⟨hdy, ?_⟩
      rw [hdy, hd.1]
      obtain ⟨f, h1, h2⟩ := scaled_of_accurate img.dy img.dx _ w hx hacc
      exact ⟨f, h2, h1⟩
    · intro hs hlt hp
      exact Resize_returns L img w 0 (le_of_lt hw) (le_refl _) (by omega) hx hy
        (by simpa [hw0] using hw) (by simpa [hw0] using hs)
        (by simpa [hw0] using hlt) (by simpa [hw0] using hp)

/-- A 400×200 source: limits 100×100 give 100×100, limits 0×100 give 200×100,
which keeps the ratio, and a width limit of 2^63 - 1 makes `NewNRGBA` panic. -/
theorem resize_exact_dims_witness :
    (∃ r, Resize sampleWorld.imaging ⟨400, 200, []⟩ 100 100 = .ok r ∧
        r.dx = 100 ∧ r.dy = 100) ∧
      Resize sampleWorld.imaging ⟨400, 200, []⟩ 0 100 = .ok ⟨200, 100, []⟩ ∧
      ScaledByCommonFactor 400 200 (⟨200, 100, []⟩ : Image).dx (⟨200, 100, []⟩ : Image).dy ∧
      Resize sampleWorld.imaging ⟨400, 200, []⟩ 9223372036854775807 100 =
        .error (str "image: NewNRGBA Rectangle has huge or negative dimensions") := by
  have hscale : sampleWorld.imaging.scale 100 400 200 = 200 := by decide
  have hacc : |((sampleWorld.imaging.scale 100 400 200 : Int) : ℚ)
      - ((100 : Int) : ℚ) * (400 : Int) / (200 : Int)| < 1 := by
    rw [hscale]; norm_num
  refine ⟨?_, by decide, ?_, by decide⟩
  · exact ((resize_exact_dims sampleWorld.imaging ⟨400, 200, []⟩ (by decide) (by decide)).1
      100 100 (by decide) (by decide)).2 (by decide)
      ⟨fun _ _ => rfl, fun _ _ _ _ _ => ⟨[], rfl⟩⟩
  · exact ((((resize_exact_dims sampleWorld.imaging ⟨400, 200, []⟩ (by decide)
      (by decide)).2.1 100 (by decide)).1 ⟨200, 100, []⟩ (by decide)).2.2 hacc).2

/-! ## The configuration read by `init` -/

/-- The fast path's digit loop accepts decimal digits only. -/
theorem atoiDigits_some (t : GoString) (ht : IsBytes t) :
    ∀ n m, atoiDigits t n = some m → t.all isDecimalDigit = true := by
  induction t with
  | nil => intro n m _; rfl
  | cons c rest ih =>
    intro n m h
    have hc : c < 256 := ht c (List.mem_cons_self c rest)
    have hrest : IsBytes rest := fun b hb => ht b (List.mem_cons_of_mem c hb)
    unfold atoiDigits at h
    simp only at h
    split_ifs at h with h9
    have hd : isDecimalDigit c = true := by
      simp only [isDecimalDigit, decide_eq_true_eq]
      omega
    simp only [List.all_cons, hd, Bool.true_and]
    exact ih hrest _ _ h

/-- The loop of `ParseUint` ends without error on decimal digits only, and
otherwise with a syntax error or with `maxVal` and a range error. -/
theorem parseUintLoop_cases (s0 : GoString) (cutoff maxVal : Nat) (t : GoString) :
    ∀ n, (∃ v, parseUintLoop s0 cutoff maxVal t n = (v, none) ∧
          t.all isDecimalDigit = true) ∨
      (∃ v, parseUintLoop s0 cutoff maxVal t n =
          (v, some (.numError (str "ParseUint") s0 false))) ∨
      parseUintLoop s0 cutoff maxVal t n =
          (maxVal, some (.numError (str "ParseUint") s0 true)) := by
  induction t with
  | nil => intro n; left; exact ⟨n, rfl, rfl⟩
  | cons c rest ih =>
    intro n
    unfold parseUintLoop
    by_cases hd : 48 ≤ c ∧ c ≤ 57
    · simp only [hd, and_self, if_true]
      have h10 : ¬ (c - 48 ≥ 10) := by omega
      simp only [h10, if_false]
      split_ifs with h1 h2
      · right; right; rfl
      · right; right; rfl
      · rcases ih ((n * 10 % 2 ^ 64 + (c - 48)) % 2 ^ 64) with ⟨v, hv, hall⟩ | hs | hr
        · left
          refine ⟨v, hv, ?_⟩
          simp only [List.all_cons, hall, Bool.and_true, isDecimalDigit, decide_eq_true_eq]
          exact hd
        · right; left; exact hs
        · right; right; exact hr
    · simp only [hd, if_false]
      by_cases hl : 97 ≤ lower c ∧ lower c ≤ 122
      · simp only [hl, and_self, if_true]
        have h10 : (lower c + 256 - 97 + 10) % 256 ≥ 10 := by omega
        simp only [h10, if_true]
        right; left; exact ⟨0, rfl⟩
      · simp only [hl, if_false]
        right; left; exact ⟨0, rfl⟩

/-- The function `ParseUint` at bit size 0: the same three outcomes, with `maxVal = 2^64 - 1`. -/
theorem ParseUint_cases (t : GoString) :
    (∃ v, ParseUint t 0 = (v, none) ∧ t ≠ [] ∧ t.all isDecimalDigit = true) ∨
      (∃ v a b, ParseUint t 0 = (v, some (.numError a b false))) ∨
      (∃ a b, ParseUint t 0 = (2 ^ 64 - 1, some (.numError a b true))) := by
  unfold ParseUint
  by_cases ht : t = []
  · simp only [ht, if_true]
    right; left; exact ⟨0, _, _, rfl⟩
  · simp only [ht, if_false]
    rcases parseUintLoop_cases t ((2 ^ 64 - 1) / 10 + 1)
        (((1 <<< (if True then intSize else 0)) % 2 ^ 64 + 2 ^ 64 - 1) % 2 ^ 64) t 0
      with ⟨v, hv, hall⟩ | ⟨v, hv⟩ | hr
    · left; exact ⟨v, hv, ht, hall⟩
    · right; left; exact ⟨v, _, _, hv⟩
    · right; right
      exact ⟨str "ParseUint", t, by rw [hr]; rfl⟩

/-- A string `ParseInt` accepts is an integer literal. -/
theorem ParseInt_ok (s : GoString) (h : (ParseInt s 0).2 = none) : isIntLiteral s = true := by
  unfold ParseInt at h
  by_cases hs : s = []
  · simp [hs] at h
  · simp only [hs, if_false] at h
    obtain ⟨c, rest, rfl⟩ := List.exists_cons_of_ne_nil hs
    simp only [List.head?_cons, Option.some.injEq, List.drop_succ_cons, List.drop_zero] at h
    by_cases hplus : c = 43
    · subst hplus
      simp only [if_true] at h
      rcases ParseUint_cases rest with ⟨v, hv, hne, hall⟩ | ⟨v, a, b, hv⟩ | ⟨a, b, hv⟩
      · simp [isIntLiteral, hall, hne]
      · rw [hv] at h; simp at h
      · rw [hv] at h; simp [intSize] at h
    · by_cases hminus : c = 45
      · subst hminus
        simp only [if_true, ite_self] at h
        rcases ParseUint_cases rest with ⟨v, hv, hne, hall⟩ | ⟨v, a, b, hv⟩ | ⟨a, b, hv⟩
        · simp [isIntLiteral, hall, hne]
        · rw [hv] at h; simp at h
        · rw [hv] at h; simp [intSize] at h
      · simp only [hplus, hminus, if_false] at h
        rcases ParseUint_cases (c :: rest) with ⟨v, hv, hne, hall⟩ | ⟨v, a, b, hv⟩ | ⟨a, b, hv⟩
        · simp only [isIntLiteral, hplus, hminus, or_self, if_false]
          exact hall
        · rw [hv] at h; simp at h
        · rw [hv] at h; simp [intSize] at h

/-- A string `Atoi` accepts is an integer literal. -/
theorem Atoi_ok (s : GoString) (hb : IsBytes s) (h : (Atoi s).2 = none) :
    isIntLiteral s = true := by
  unfold Atoi at h
  by_cases hfast : intSize = 64 ∧ (0 < s.length ∧ s.length < 19)
  · simp only [hfast, and_self, if_true] at h
    have hs : s ≠ [] := by
      intro h0; rw [h0] at hfast; simp at hfast
    obtain ⟨c, rest, rfl⟩ := List.exists_cons_of_ne_nil hs
    have hrest : IsBytes rest := fun b hb2 => hb b (List.mem_cons_of_mem c hb2)
    simp only [List.head?_cons, Option.some.injEq, List.drop_succ_cons, List.drop_zero] at h
    by_cases hsign : c = 45 ∨ c = 43
    · have hsign2 : c = 43 ∨ c = 45 := hsign.symm
      simp only [hsign, decide_True, if_true, true_and] at h
      by_cases hlen : rest.length < 1
      · simp [hlen] at h
      · simp only [hlen, if_false] at h
        have hne : rest ≠ [] := by
          intro h0; rw [h0] at hlen; simp at hlen
        cases hd : atoiDigits rest 0 with
        | none => rw [hd] at h; simp at h
        | some m =>
          have hall := atoiDigits_some rest hrest 0 m hd
          simp [isIntLiteral, hsign2, hall, hne]
    · have hsign2 : ¬ (c = 43 ∨ c = 45) := fun h0 => hsign h0.symm
      simp only [hsign, decide_False, Bool.false_eq_true, if_false, false_and] at h
      cases hd : atoiDigits (c :: rest) 0 with
      | none => rw [hd] at h; simp at h
      | some m =>
        have hall := atoiDigits_some (c :: rest) hb 0 m hd
        simp only [isIntLiteral, hsign2, if_false]
        exact hall
  · simp only [hfast, if_false] at h
    apply ParseInt_ok
    cases hp : ParseInt s 0 with
    | mk v e =>
      rw [hp] at h
      cases e with
      | none => rfl
      | some err => cases err <;> simp at h

theorem init_maxWidth (getenv : GoString → GoString) :
    (init getenv).maxWidth =
      if (Atoi (getenv (str "MAX_WIDTH"))).2 ≠ none then 250
      else (Atoi (getenv (str "MAX_WIDTH"))).1 := rfl

theorem init_maxHeight (getenv : GoString → GoString) :
    (init getenv).maxHeight =
      if (Atoi (getenv (str "MAX_HEIGHT"))).2 ≠ none then 250
      else (Atoi (getenv (str "MAX_HEIGHT"))).1 := rfl

/-- C7: a `MAX_WIDTH` that is absent (empty) or is not an integer literal
gives `maxWidth = 250`, and likewise `MAX_HEIGHT` gives `maxHeight = 250`. -/
theorem init_default_limits (getenv : GoString → GoString)
    (hbytes : ∀ name, IsBytes (getenv name)) :
    (isIntLiteral (getenv (str "MAX_WIDTH")) = false → (init getenv).maxWidth = 250) ∧
      (isIntLiteral (getenv (str "MAX_HEIGHT")) = false → (init getenv).maxHeight = 250) := by
  constructor
  · intro hlit
    rw [init_maxWidth]
    have herr : (Atoi (getenv (str "MAX_WIDTH"))).2 ≠ none := by
      intro h0
      rw [Atoi_ok _ (hbytes _) h0] at hlit
      exact absurd hlit (by decide)
    simp only [herr, ne_eq, not_false_eq_true, if_true]
  · intro hlit
    rw [init_maxHeight]
    have herr : (Atoi (getenv (str "MAX_HEIGHT"))).2 ≠ none := by
      intro h0
      rw [Atoi_ok _ (hbytes _) h0] at hlit
      exact absurd hlit (by decide)
    simp only [herr, ne_eq, not_false_eq_true, if_true]

/-- With `MAX_WIDTH` unset and `MAX_HEIGHT=12px` both limits are 250. -/
theorem init_default_limits_witness :
    isIntLiteral (sizeEnv [] (str "12px") (str "MAX_WIDTH")) = false ∧
      isIntLiteral (sizeEnv [] (str "12px") (str "MAX_HEIGHT")) = false ∧
      (init (sizeEnv [] (str "12px"))).maxWidth = 250 ∧
      (init (sizeEnv [] (str "12px"))).maxHeight = 250 :=
  have hbytes : ∀ name, IsBytes (sizeEnv [] (str "12px") name) := by
    intro name
    unfold sizeEnv
    split_ifs <;> decide
  ⟨by decide, by decide,
    (init_default_limits (sizeEnv [] (str "12px")) hbytes).1 (by decide),
    (init_default_limits (sizeEnv [] (str "12px")) hbytes).2 (by decide)⟩

/-- C10: `init` validates no range. Whatever integer `Atoi` parses from
`MAX_WIDTH` or `MAX_HEIGHT`, zero and negative ones included, is the limit;
250 is taken when `Atoi` fails; and the resize step is called with the
limits as `init` set them. -/
theorem init_no_range_validation (getenv : GoString → GoString) :
    (∀ n, Atoi (getenv (str "MAX_WIDTH")) = (n, none) → (init getenv).maxWidth = n) ∧
    (∀ n, Atoi (getenv (str "MAX_HEIGHT")) = (n, none) → (init getenv).maxHeight = n) ∧
    ((Atoi (getenv (str "MAX_WIDTH"))).2 ≠ none → (init getenv).maxWidth = 250) ∧
    ((Atoi (getenv (str "MAX_HEIGHT"))).2 ≠ none → (init getenv).maxHeight = 250) ∧
    (∀ (W : World) (event : Event) (w h : Int),
        Call.resize w h ∈ (handler (init getenv) W event).calls →
        w = (init getenv).maxWidth ∧ h = (init getenv).maxHeight) ∧
    (∀ (W : World) (event : Event) srcKey body img,
        QueryUnescape event.S3Key = .ok srcKey →
        W.getObject event.S3Bucket srcKey = .ok body → W.imageDecode body = .ok img →
        Call.resize (init getenv).maxWidth (init getenv).maxHeight
          ∈ (handler (init getenv) W event).calls) := by
  refine ⟨?_, ?_, ?_, ?_, ?_, ?_⟩
  · intro n h; rw [init_maxWidth, h]; simp
  · intro n h; rw [init_maxHeight, h]; simp
  · intro h; rw [init_maxWidth]; simp only [h, ne_eq, not_false_eq_true, if_true]
  · intro h; rw [init_maxHeight]; simp only [h, ne_eq, not_false_eq_true, if_true]
  · intro W event w h hin
    have hr := handler_run (init getenv) W event
    generalize handler (init getenv) W event = out at hr hin
    cases hr <;> simp at hin <;> exact hin
  · intro W event srcKey body img hkey hget himg
    have hr := handler_run (init getenv) W event
    generalize handler (init getenv) W event = out at hr
    cases hr with
    | keyError e hkey2 => rw [hkey] at hkey2; cases hkey2
    | getError k e hkey2 hget2 =>
      rw [hkey] at hkey2; cases hkey2; rw [hget] at hget2; cases hget2
    | decodeError k b e hkey2 hget2 himg2 =>
      rw [hkey] at hkey2; cases hkey2; rw [hget] at hget2; cases hget2
      rw [himg] at himg2; cases himg2
    | _ => simp

/-- With `MAX_WIDTH=0` and `MAX_HEIGHT=-5` the limits are 0 and -5, and the
resize step is called with them. -/
theorem init_no_range_validation_witness :
    (init (sizeEnv (str "0") (str "-5"))).maxWidth = 0 ∧
      (init (sizeEnv (str "0") (str "-5"))).maxHeight = -5 ∧
      Call.resize 0 (-5) ∈
        (handler (init (sizeEnv (str "0") (str "-5"))) sampleWorld sampleEvent).calls :=
  ⟨(init_no_range_validation (sizeEnv (str "0") (str "-5"))).1 0 (by decide),
    (init_no_range_validation (sizeEnv (str "0") (str "-5"))).2.1 (-5) (by decide),
    (init_no_range_validation (sizeEnv (str "0") (str "-5"))).2.2.2.2.2 sampleWorld sampleEvent
      (str "cat photo.png") [1] ⟨400, 200, []⟩ rfl rfl rfl⟩

end Lambda
